import Mathlib

/-!
Verification development for the PrimeNest real-estate assistant backend.

The repository contains two variants of the conversational assistant
controller:
* `src/controllers/assistant.controller.js` — a single-turn handler
  (namespace `AssistantController` below);
* `src/unnamed/part_003` — the session-based handler with an in-memory
  session store (namespace `SessionAssistant` below).

Both variants define the identical `retryWithBackoff` utility, modelled once
at top level.  JavaScript effects are made explicit: the session `Map` is an
insertion-ordered association list, upstream services and the database are
inputs describing their observed outcomes, `setTimeout` delays are collected
in a list, and "was a database query issued" is an explicit boolean.
-/

/-! ### Retry utility (`retryWithBackoff`, identical in both controllers) -/

/-- Observable behaviour of one `retryWithBackoff` run: the value returned or
the error thrown (`Except.error none` models JS throwing the *uninitialized*
`lastError`, i.e. `undefined`), the `setTimeout` delays performed, and how
many times the wrapped operation was invoked. -/
structure RetryTrace (ε α : Type) where
  result : Except (Option ε) α
  delays : List Nat
  attempts : Nat

/-- The `for (let i = 0; i < maxRetries; i++)` loop body.  `fn k` is the
outcome of the `k`-th invocation of the wrapped operation; `i` is the current
loop index, `remaining` the number of iterations left, `lastError` the
current value of the `lastError` variable. -/
def retryAux (fn : Nat → Except ε α) (baseDelay : Nat) :
    Nat → Nat → Option ε → RetryTrace ε α
  | _, 0, lastError => ⟨.error lastError, [], 0⟩
  | i, remaining + 1, _ =>
    match fn i with
    | .ok a => ⟨.ok a, [], 1⟩
    | .error e =>
      -- `if (i < maxRetries - 1)`: sleep `baseDelay * 2^i`, else fall out of
      -- the loop and `throw lastError`.
      if remaining = 0 then ⟨.error (some e), [], 1⟩
      else
        let t := retryAux fn baseDelay (i + 1) remaining (some e)
        ⟨t.result, baseDelay * 2 ^ i :: t.delays, t.attempts + 1⟩

/-- `retryWithBackoff(fn, maxRetries, baseDelay)`.  `maxRetries` is an `Int`
so that the JS loop's behaviour on non-positive counts (zero iterations) is
representable; the loop runs `maxRetries.toNat` times. -/
def retryWithBackoff (fn : Nat → Except ε α) (maxRetries : Int) (baseDelay : Nat) :
    RetryTrace ε α :=
  retryAux fn baseDelay 0 maxRetries.toNat none

/-! ### `application/x-www-form-urlencoded` codec

Model of `URLSearchParams` serialization (used by `generateResponse` in the
session controller to build `searchUrl`) and of the matching decoding of a
query-string parameter. -/

/-- Upper-case hex digit of a value `< 16`. -/
def hexDigit (v : Nat) : Char :=
  if v < 10 then Char.ofNat (48 + v) else Char.ofNat (55 + v)

/-- Value of a hex digit character (either case). -/
def hexVal (c : Char) : Option Nat :=
  if 48 ≤ c.toNat ∧ c.toNat ≤ 57 then some (c.toNat - 48)
  else if 65 ≤ c.toNat ∧ c.toNat ≤ 70 then some (c.toNat - 55)
  else if 97 ≤ c.toNat ∧ c.toNat ≤ 102 then some (c.toNat - 87)
  else none

/-- Byte value of a two-hex-digit pair. -/
def hexVal2 (h1 h2 : Char) : Option Nat :=
  match hexVal h1, hexVal h2 with
  | some v1, some v2 => some (16 * v1 + v2)
  | _, _ => none

/-- UTF-8 byte sequence of a code point. -/
def utf8EncodeChar (n : Nat) : List Nat :=
  if n < 0x80 then [n]
  else if n < 0x800 then [0xC0 + n / 0x40, 0x80 + n % 0x40]
  else if n < 0x10000 then
    [0xE0 + n / 0x1000, 0x80 + n / 0x40 % 0x40, 0x80 + n % 0x40]
  else
    [0xF0 + n / 0x40000, 0x80 + n / 0x1000 % 0x40, 0x80 + n / 0x40 % 0x40,
      0x80 + n % 0x40]

/-- Percent-escape of one byte: `%HH`. -/
def pctTriple (b : Nat) : List Char :=
  ['%', hexDigit (b / 16), hexDigit (b % 16)]

/-- Characters the urlencoded serializer leaves unescaped:
ASCII digits and letters, and `*`, `-`, `.`, `_`. -/
def isFormUnreserved (c : Char) : Bool :=
  (48 ≤ c.toNat && c.toNat ≤ 57) || (65 ≤ c.toNat && c.toNat ≤ 90) ||
    (97 ≤ c.toNat && c.toNat ≤ 122) || c = '*' || c = '-' || c = '.' || c = '_'

/-- Serialization of one character: kept if unreserved, space becomes `+`,
anything else is the percent-escape of its UTF-8 bytes. -/
def formEncodeChar (c : Char) : List Char :=
  if isFormUnreserved c then [c]
  else if c = ' ' then ['+']
  else (utf8EncodeChar c.toNat).flatMap pctTriple

/-- urlencoded serialization of a character list. -/
def formEncodeList (l : List Char) : List Char :=
  l.flatMap formEncodeChar

/-- urlencoded serialization of a string (one `URLSearchParams` component). -/
def formEncode (s : String) : String :=
  ⟨formEncodeList s.data⟩

/-- First phase of urlencoded decoding: turn the escaped text back into a
byte sequence (`+` is a space byte, `%HH` is a byte, any other character
contributes its own UTF-8 bytes; a malformed percent-escape is rejected). -/
def pctDecodeBytes : List Char → Option (List Nat)
  | [] => some []
  | c :: rest =>
    if c = '+' then (pctDecodeBytes rest).map (0x20 :: ·)
    else if c = '%' then
      match rest with
      | h1 :: h2 :: rest2 =>
        match hexVal2 h1 h2 with
        | some b => (pctDecodeBytes rest2).map (b :: ·)
        | none => none
      | _ => none
    else (pctDecodeBytes rest).map (utf8EncodeChar c.toNat ++ ·)

/-- Is `b` a UTF-8 continuation byte? -/
def isCont (b : Nat) : Bool :=
  0x80 ≤ b && b < 0xC0

/-- Second phase: UTF-8 decoding of a byte sequence. -/
def utf8Decode : List Nat → Option (List Char)
  | [] => some []
  | b :: rest =>
    if b < 0x80 then (utf8Decode rest).map (Char.ofNat b :: ·)
    else if b < 0xC0 then none
    else if b < 0xE0 then
      match rest with
      | b2 :: rest2 =>
        if isCont b2 then
          (utf8Decode rest2).map (Char.ofNat ((b - 0xC0) * 0x40 + (b2 - 0x80)) :: ·)
        else none
      | [] => none
    else if b < 0xF0 then
      match rest with
      | b2 :: b3 :: rest3 =>
        if isCont b2 && isCont b3 then
          (utf8Decode rest3).map
            (Char.ofNat ((b - 0xE0) * 0x1000 + (b2 - 0x80) * 0x40 + (b3 - 0x80)) :: ·)
        else none
      | _ => none
    else if b < 0xF8 then
      match rest with
      | b2 :: b3 :: b4 :: rest4 =>
        if isCont b2 && isCont b3 && isCont b4 then
          (utf8Decode rest4).map
            (Char.ofNat ((b - 0xF0) * 0x40000 + (b2 - 0x80) * 0x1000 +
              (b3 - 0x80) * 0x40 + (b4 - 0x80)) :: ·)
        else none
      | _ => none
    else none

/-- urlencoded decoding of one query-string component. -/
def formDecodeList (l : List Char) : Option (List Char) :=
  pctDecodeBytes l >>= utf8Decode

/-- Everything after the first occurrence of `sep` (`[]` if absent). -/
def dropThroughFirst (sep : Char) : List Char → List Char
  | [] => []
  | c :: rest => if c = sep then rest else dropThroughFirst sep rest

/-- Split at every occurrence of `sep`. -/
def splitOnCharAux (sep : Char) : List Char → List Char → List (List Char)
  | [], acc => [acc.reverse]
  | c :: rest, acc =>
    if c = sep then acc.reverse :: splitOnCharAux sep rest []
    else splitOnCharAux sep rest (c :: acc)

def splitOnChar (sep : Char) (l : List Char) : List (List Char) :=
  splitOnCharAux sep l []

/-- Split at the first occurrence of `sep`; the second component is `[]`
when `sep` is absent (a key-only query parameter has value `""`). -/
def splitFirstOn (sep : Char) : List Char → List Char × List Char
  | [] => ([], [])
  | c :: rest =>
    if c = sep then ([], rest)
    else
      let p := splitFirstOn sep rest
      (c :: p.1, p.2)

/-- Join components with `&`. -/
def joinAmp : List (List Char) → List Char
  | [] => []
  | [x] => x
  | x :: y :: xs => x ++ '&' :: joinAmp (y :: xs)

/-- `URLSearchParams.toString()`: `enc(k)=enc(v)` pairs joined by `&`, in
insertion order. -/
def urlSearchParamsToString (ps : List (String × String)) : String :=
  ⟨joinAmp (ps.map fun kv => formEncodeList kv.1.data ++ '=' :: formEncodeList kv.2.data)⟩

/-- `new URLSearchParams(queryOf url).get(key)`: first matching parameter of
the part after the first `?`, urlencoded-decoded. -/
def getSearchParam (url : String) (key : String) : Option String :=
  (splitOnChar '&' (dropThroughFirst '?' url.data)).findSome? fun comp =>
    let kv := splitFirstOn '=' comp
    match formDecodeList kv.1, formDecodeList kv.2 with
    | some k, some v => if k = key.data then some ⟨v⟩ else none
    | _, _ => none

/-- `encodeURIComponent` (used by the single-turn controller): unreserved set
`A-Za-z0-9 - _ . ! ~ * ' ( )`, everything else percent-escaped (space is
`%20`, not `+`). -/
def encodeURIComponentChar (c : Char) : List Char :=
  if c.isAlphanum || c ∈ ['-', '_', '.', '!', '~', '*', '\'', '(', ')'] then [c]
  else (utf8EncodeChar c.toNat).flatMap pctTriple

def encodeURIComponent (s : String) : String :=
  ⟨s.data.flatMap encodeURIComponentChar⟩

/-! ### Shared data model -/

/-- A JavaScript value that may be `undefined`, `null`, or present.  The
distinction between `undef` and `null` matters for the intent resolver's
parse-error path. -/
inductive JSVal (α : Type) where
  | undef
  | null
  | val (a : α)
deriving DecidableEq, Repr

/-- Truthiness of an optional string (JS: `undefined`, `null` and `""` are
falsy). -/
def optTruthy : Option String → Bool
  | none => false
  | some s => s ≠ ""

/-- JS `a || b` on optional strings. -/
def jsOr (a b : Option String) : Option String :=
  if optTruthy a then a else b

/-- Truthiness of a `JSVal` string. -/
def JSVal.truthyStr : JSVal String → Bool
  | .val s => s ≠ ""
  | _ => false

/-- Truthiness of a `JSVal` number (0 is falsy). -/
def JSVal.truthyNat : JSVal Nat → Bool
  | .val n => n ≠ 0
  | _ => false

/-- One conversation turn (`{role, content}`). -/
structure Turn where
  role : String
  content : String
deriving DecidableEq, Repr

/-- `priceRange` object `{min, max}`; a missing component is `none`. -/
structure PriceRange where
  min : Option Nat
  max : Option Nat
deriving DecidableEq, Repr

/-- Truthiness of a `JSVal` price range (an object is always truthy). -/
def JSVal.truthyRange : JSVal PriceRange → Bool
  | .val _ => true
  | _ => false

/-- Accumulated user preferences stored in a session. -/
structure Preferences where
  propertyType : Option String
  priceRange : Option PriceRange
  bedrooms : Option Nat
  locations : List String
deriving DecidableEq, Repr

/-- A conversation session (session-based controller). -/
structure Session where
  history : List Turn
  lastIntent : Option String
  lastLocation : Option String
  preferences : Preferences
  createdAt : Nat
  lastActivity : Nat
deriving DecidableEq, Repr

/-- The in-memory `conversationSessions` `Map`, modelled as an
insertion-ordered association list (JS `Map` preserves insertion order and
`keys().next().value` is the oldest-inserted key). -/
abbrev SessionStore (κ : Type) := List (κ × Session)

/-- `SESSION_CONFIG`. -/
structure SessionConfig where
  maxHistoryLength : Nat
  sessionTimeout : Nat
  maxSessions : Nat

def SESSION_CONFIG : SessionConfig :=
  { maxHistoryLength := 20, sessionTimeout := 30 * 60 * 1000, maxSessions := 1000 }

/-- The fresh session object inserted by `getSessionContext`. -/
def freshSession (now : Nat) : Session :=
  { history := []
    lastIntent := none
    lastLocation := none
    preferences := { propertyType := none, priceRange := none, bedrooms := none, locations := [] }
    createdAt := now
    lastActivity := now }

/-- `conversationSessions.get(id)`: first entry with the given key. -/
def lookupSession [DecidableEq κ] : SessionStore κ → κ → Option Session
  | [], _ => none
  | p :: rest, k => if p.1 = k then some p.2 else lookupSession rest k

/-- `conversationSessions.has(id)`. -/
def hasKey [DecidableEq κ] (store : SessionStore κ) (k : κ) : Bool :=
  (lookupSession store k).isSome

/-- In-place mutation of the session stored under `k` (JS objects are
mutated through the reference held by the map). -/
def mapSession [DecidableEq κ] (store : SessionStore κ) (k : κ) (f : Session → Session) :
    SessionStore κ :=
  store.map fun p => if p.1 = k then (p.1, f p.2) else p

/-- History of the session under `k` (`[]` when absent — a freshly created
session also starts with `[]`). -/
def historyOf [DecidableEq κ] (store : SessionStore κ) (k : κ) : List Turn :=
  ((lookupSession store k).map (·.history)).getD []

/-- `lastLocation` of the session under `k` (`null` when absent, matching a
freshly created session). -/
def lastLocationOf [DecidableEq κ] (store : SessionStore κ) (k : κ) : Option String :=
  ((lookupSession store k).map (·.lastLocation)).getD none

/-- `getSessionContext(sessionId)`: get-or-create with capacity eviction of
the oldest-inserted session, refreshing `lastActivity`.  Returns the updated
store and the session object handed to the caller. -/
def getSessionContext [DecidableEq κ] (store : SessionStore κ) (sessionId : κ) (now : Nat) :
    SessionStore κ × Session :=
  let store1 :=
    if hasKey store sessionId then store
    else
      (if SESSION_CONFIG.maxSessions ≤ store.length then store.tail else store)
        ++ [(sessionId, freshSession now)]
  let store2 := mapSession store1 sessionId fun s => { s with lastActivity := now }
  (store2, (lookupSession store2 sessionId).getD (freshSession now))

/-- The `updates` object passed to `updateSessionContext` by the chat
handler (`{lastIntent, lastLocation}`). -/
structure SessionUpdates where
  lastIntent : Option String
  lastLocation : Option String
deriving DecidableEq, Repr

/-- `updateSessionContext(sessionId, updates)`: `Object.assign` of the
updates, then `history = history.slice(-maxHistoryLength)` when the history
exceeds the configured maximum.  A no-op when the session is absent. -/
def updateSessionContext [DecidableEq κ] (store : SessionStore κ) (sessionId : κ)
    (updates : SessionUpdates) : SessionStore κ :=
  mapSession store sessionId fun s =>
    let s1 := { s with lastIntent := updates.lastIntent, lastLocation := updates.lastLocation }
    if SESSION_CONFIG.maxHistoryLength < s1.history.length then
      { s1 with history := s1.history.drop (s1.history.length - SESSION_CONFIG.maxHistoryLength) }
    else s1

/-- `context.history.push(turn)` through the session reference. -/
def pushHistory [DecidableEq κ] (store : SessionStore κ) (k : κ) (t : Turn) : SessionStore κ :=
  mapSession store k fun s => { s with history := s.history ++ [t] }

/-- A listing row as selected by the controllers. -/
structure Post where
  id : Nat
  title : String
  city : String
  country : String
  address : String
  price : Nat
  bedroom : Nat
  bathroom : Nat
  property : String
  type : String
deriving DecidableEq, Repr

/-- ASCII lower-casing of one character (model of the case folding behind
Prisma's `mode: 'insensitive'`). -/
def lowerChar (c : Char) : Char :=
  if 65 ≤ c.toNat ∧ c.toNat ≤ 90 then Char.ofNat (c.toNat + 32) else c

/-- Is `needle` a contiguous subsequence of `hay`? -/
def hasSubSeq (needle : List Char) : List Char → Bool
  | [] => needle.isEmpty
  | c :: t => needle.isPrefixOf (c :: t) || hasSubSeq needle t

/-- `field contains needle, mode insensitive`. -/
def containsInsensitive (hay needle : String) : Bool :=
  hasSubSeq (needle.data.map lowerChar) (hay.data.map lowerChar)

/-- The `OR` block over `city`, `country`, `address` used by both search
adapters for the location filter. -/
def locationMatches (loc : String) (p : Post) : Bool :=
  containsInsensitive p.city loc || containsInsensitive p.country loc ||
    containsInsensitive p.address loc

/-- Result of one search-adapter call: whether a database query was issued
and the `{count, posts}` payload. -/
structure SearchOutcome where
  queriedDb : Bool
  count : Nat
  posts : List Post
deriving DecidableEq, Repr

/-- `!message || !message.trim()`: absent, empty or whitespace-only body
message. -/
def invalidMessage : Option String → Bool
  | none => true
  | some s => s.data.all (·.isWhitespace)

namespace SessionAssistant

/-! Model of `src/unnamed/part_003`, the session-based assistant
controller. -/

/-- The upstream intent completion after `JSON.parse`: `none` models a parse
failure (the `catch` branch of `detectIntent`), `some r` a parsed object
whose fields may each be absent/null/falsy (`none`). -/
structure IntentJson where
  intent : Option String
  location : Option String
  propertyType : Option String
  priceRange : Option PriceRange
  bedrooms : Option Nat
  action : Option String
deriving DecidableEq, Repr

/-- The object returned by `detectIntent`.  `JSVal.undef` records a field
that the code leaves `undefined`. -/
structure ResolvedIntent where
  intent : String
  location : Option String
  propertyType : JSVal String
  priceRange : JSVal PriceRange
  bedrooms : JSVal Nat
  action : JSVal String
deriving DecidableEq, Repr

/-- JS `o || d` for a string field. -/
def strOrDefault (o : Option String) (d : String) : String :=
  match o with
  | some s => if s = "" then d else s
  | none => d

/-- `detectIntent`, after the upstream call: applies the `||` defaults on a
parsed reply, and returns `{ intent: 'greeting', location: null }` — nothing
else — on a parse error. -/
def detectIntent (parsed : Option IntentJson) : ResolvedIntent :=
  match parsed with
  | some r =>
    { intent := strOrDefault r.intent "greeting"
      location := jsOr r.location none
      propertyType := .val (strOrDefault r.propertyType "any")
      priceRange := match r.priceRange with | some pr => .val pr | none => .null
      bedrooms := match r.bedrooms with | some n => if n = 0 then .null else .val n | none => .null
      action := .val (strOrDefault r.action "any") }
  | none =>
    { intent := "greeting", location := none, propertyType := .undef,
      priceRange := .undef, bedrooms := .undef, action := .undef }

/-- Does the resolved intent leave no field `undefined`? -/
def ResolvedIntent.allDefined (d : ResolvedIntent) : Bool :=
  d.propertyType ≠ JSVal.undef && d.priceRange ≠ JSVal.undef &&
    d.bedrooms ≠ JSVal.undef && d.action ≠ JSVal.undef

/-- The filter object handed to `searchListings`. -/
structure Filters where
  location : Option String
  propertyType : JSVal String
  priceRange : JSVal PriceRange
  bedrooms : JSVal Nat
  action : JSVal String
deriving DecidableEq, Repr

/-- The `price` condition: `gte` when `priceRange.min` is truthy, `lte` when
`priceRange.max` is truthy (no condition when both are falsy). -/
def priceCondMatches (pr : PriceRange) (price : Nat) : Bool :=
  (match pr.min with | some m => if m = 0 then true else m ≤ price | none => true)
  && (match pr.max with | some m => if m = 0 then true else price ≤ m | none => true)

/-- The conjunctive `where.AND` built by `searchListings`; an empty
conjunction (`where: undefined`) matches every row. -/
def matchesFilters (f : Filters) (p : Post) : Bool :=
  (match f.location with
   | some loc => if loc ≠ "" then locationMatches loc p else true
   | none => true)
  && (match f.propertyType with
      | .val s => if s ≠ "" && s ≠ "any" then p.property == s else true
      | _ => true)
  && (match f.priceRange with
      | .val pr => priceCondMatches pr p.price
      | _ => true)
  && (match f.bedrooms with
      | .val n => if n ≠ 0 then n ≤ p.bedroom else true
      | _ => true)
  && (match f.action with
      | .val s => if s ≠ "" && s ≠ "any" then p.type == s else true
      | _ => true)

/-- `searchListings(filters)`: always issues the `findMany` query (there is
no guard on an absent location in this variant), caps the page at 10 rows,
reports the page length as `count`, and converts a query error into an empty
result. -/
def searchListings (filters : Filters) (db : Except Unit (List Post)) : SearchOutcome :=
  match db with
  | .error _ => ⟨true, 0, []⟩
  | .ok rows =>
    let posts := (rows.filter (matchesFilters filters)).take 10
    ⟨true, posts.length, posts⟩

/-- A per-field-presence patch of `Preferences` (`{ ...old, ...patch }`
overwrites exactly the keys present in the patch). -/
structure PrefsPatch where
  propertyType : Option (Option String)
  priceRange : Option (Option PriceRange)
  bedrooms : Option (Option Nat)
  locations : Option (List String)
deriving DecidableEq, Repr

/-- JS object spread `{ ...old, ...patch }`. -/
def mergePreferences (old : Preferences) (patch : PrefsPatch) : Preferences :=
  { propertyType := patch.propertyType.getD old.propertyType
    priceRange := patch.priceRange.getD old.priceRange
    bedrooms := patch.bedrooms.getD old.bedrooms
    locations := patch.locations.getD old.locations }

/-- The structured payload extracted from the generation reply. -/
structure GenPayload where
  reply : String
  searchUrl : Option String
  suggestions : Option (List String)
  preferences : Option PrefsPatch
deriving DecidableEq, Repr

/-- Observed outcome of the retried generation call:
`fail` — the upstream call failed on every attempt;
`unparseable` — a reply arrived but neither `JSON.parse` nor the
`\{[\s\S]*\}` extraction produced a payload (the thrown error reaches the
outer catch of `generateResponse`);
`salvaged p` — `JSON.parse` failed but the extraction produced `p`;
`parsed p` — `JSON.parse` produced `p`. -/
inductive GenOutcome where
  | fail
  | unparseable
  | salvaged (p : GenPayload)
  | parsed (p : GenPayload)
deriving DecidableEq, Repr

/-- The `URLSearchParams` insertion sequence built for a search intent:
`city` always, `property` when the type is truthy and not `any`, `bedroom`
when truthy, `minPrice`/`maxPrice` (with `|| 0` and `|| 10000000` defaults)
when a price range is present. -/
def searchParamsOf (intentData : ResolvedIntent) : List (String × String) :=
  [("city", intentData.location.getD "")]
  ++ (match intentData.propertyType with
      | .val s => if s ≠ "" && s ≠ "any" then [("property", s)] else []
      | _ => [])
  ++ (match intentData.bedrooms with
      | .val n => if n ≠ 0 then [("bedroom", toString n)] else []
      | _ => [])
  ++ (match intentData.priceRange with
      | .val pr =>
        [("minPrice", toString (pr.min.getD 0)),
          ("maxPrice", toString (match pr.max with
            | some m => if m = 0 then 10000000 else m
            | none => 10000000))]
      | _ => [])

/-- `"/list?" + params.toString()` on the parsed-payload path. -/
def buildSearchUrl (intentData : ResolvedIntent) : String :=
  "/list?" ++ urlSearchParamsToString (searchParamsOf intentData)

/-- The fixed fallback object of `generateResponse`'s outer catch. -/
def fallbackGenPayload : GenPayload :=
  { reply := "I'm here to help you find your perfect property! Could you tell me more about what you're looking for?"
    searchUrl := none
    suggestions := some ["Show me apartments in Lagos", "Find houses under ₦5M", "2 bedroom flats for rent"]
    preferences := none }

/-- The `if (parsedData.preferences)` block: re-fetches the session and
merges the model-extracted preferences, appending a new location. -/
def applyPrefsMutation [DecidableEq κ] (store : SessionStore κ) (sessionId : κ)
    (intentData : ResolvedIntent) (patch : PrefsPatch) (now : Nat) : SessionStore κ :=
  let store1 := (getSessionContext store sessionId now).1
  mapSession store1 sessionId fun s =>
    let prefs1 := mergePreferences s.preferences patch
    let prefs2 :=
      match intentData.location with
      | some loc =>
        if loc ≠ "" && !(prefs1.locations.contains loc) then
          { prefs1 with locations := prefs1.locations ++ [loc] }
        else prefs1
      | none => prefs1
    { s with preferences := prefs2 }

/-- `generateResponse` after the upstream call: post-processing of the
payload (the prompt assembly and the upstream request are not modelled; the
search results feed only the prompt).  Note the only `searchUrl` rewrite is
the search-intent rebuild — there is no `greeting`/`advice` nulling in this
variant. -/
def generateResponse [DecidableEq κ] (store : SessionStore κ) (sessionId : κ)
    (intentData : ResolvedIntent) (g : GenOutcome) (now : Nat) :
    GenPayload × SessionStore κ :=
  match g with
  | .fail => (fallbackGenPayload, store)
  | .unparseable => (fallbackGenPayload, store)
  | .salvaged p =>
    let cityOnlyUrl := "/list?" ++ urlSearchParamsToString [("city", intentData.location.getD "")]
    let p1 :=
      if intentData.intent = "search" && optTruthy intentData.location then
        { p with searchUrl := some cityOnlyUrl }
      else p
    (p1, store)
  | .parsed p =>
    let p1 :=
      if intentData.intent = "search" && optTruthy intentData.location then
        { p with searchUrl := some (buildSearchUrl intentData) }
      else p
    let store1 :=
      match p.preferences with
      | some patch => applyPrefsMutation store sessionId intentData patch now
      | none => store
    (p1, store1)

/-- Environment of one request: outcome of the retried intent call (`error`
= all attempts threw; `ok` = the final reply, possibly unparseable), the
listing store behaviour, and the generation outcome. -/
structure ChatEnv where
  intentUpstream : Except Unit (Option IntentJson)
  db : Except Unit (List Post)
  gen : GenOutcome

/-- The JSON response sent by the chat handler. -/
structure ChatResponse (κ : Type) where
  status : Nat
  reply : String
  searchUrl : Option String
  suggestions : Option (List String)
  sessionId : Option κ
deriving DecidableEq, Repr

/-- Result of one request: updated store, response, and whether a database
query was issued. -/
structure ChatResult (κ : Type) where
  store : SessionStore κ
  response : ChatResponse κ
  dbQueried : Bool

/-- `chatWithAssistant(req, res)` of the session-based controller.  `genSid`
is the generated identifier used when the body carries none. -/
def chatWithAssistant [DecidableEq κ] (store : SessionStore κ) (message : Option String)
    (sessionId : Option κ) (genSid : κ) (env : ChatEnv) (now : Nat) : ChatResult κ :=
  if invalidMessage message then
    { store := store
      response := { status := 400, reply := "Please provide a message.", searchUrl := none,
                    suggestions := none, sessionId := none }
      dbQueried := false }
  else
    let msg := message.getD ""
    let sid := sessionId.getD genSid
    let store1 := (getSessionContext store sid now).1
    let store2 := pushHistory store1 sid { role := "user", content := msg }
    match env.intentUpstream with
    | .error _ =>
      -- `retryWithBackoff(() => detectIntent(...))` exhausted its attempts;
      -- the outer catch sends the fixed fallback payload — without trimming
      -- the history that was just pushed.
      { store := store2
        response := { status := 200
                      reply := "I'm having a moment! Let's try that again. What kind of property are you looking for?"
                      searchUrl := none
                      suggestions := some ["Apartments in Lagos", "Houses for rent", "Properties under ₦5M"]
                      sessionId := some sid }
        dbQueried := false }
    | .ok upstream =>
      let intentData := detectIntent upstream
      let context := (lookupSession store2 sid).getD (freshSession now)
      let searchLocation := jsOr intentData.location context.lastLocation
      let doSearch :=
        (intentData.intent = "search" || intentData.intent = "follow_up" ||
          intentData.intent = "clarification") && optTruthy searchLocation
      let searchResults :=
        if doSearch then
          searchListings
            { location := searchLocation, propertyType := intentData.propertyType,
              priceRange := intentData.priceRange, bedrooms := intentData.bedrooms,
              action := intentData.action } env.db
        else ⟨false, 0, []⟩
      let gr := generateResponse store2 sid intentData env.gen now
      let responseData := gr.1
      let store4 := pushHistory gr.2 sid { role := "model", content := responseData.reply }
      let store5 := updateSessionContext store4 sid
        { lastIntent := some intentData.intent,
          lastLocation := jsOr intentData.location context.lastLocation }
      { store := store5
        response := { status := 200, reply := responseData.reply,
                      searchUrl := responseData.searchUrl,
                      suggestions := responseData.suggestions, sessionId := some sid }
        dbQueried := searchResults.queriedDb }

end SessionAssistant

namespace AssistantController

/-! Model of `src/controllers/assistant.controller.js`, the single-turn
assistant controller.  Its `detectIntent` resolves to an `{intent, location}`
pair (the text-pattern parsing of the upstream completion is not needed by
any claim and the resolved pair is taken as an environment input). -/

/-- Payload parsed from the matched `{...}` block of the generation reply. -/
structure GenPayload where
  reply : String
  searchUrl : Option String
deriving DecidableEq, Repr

/-- Observed outcome of the retried generation call: upstream failure, no
`{...}` block in the reply, a block that fails `JSON.parse` (the throw
reaches the outer catch), or a parsed payload. -/
inductive GenOutcome where
  | fail
  | noJsonMatch
  | badJson
  | parsed (p : GenPayload)
deriving DecidableEq, Repr

/-- Environment of one request. -/
structure Env where
  intentOutcome : Except Unit (String × Option String)
  db : Except Unit (List Post)
  gen : GenOutcome

/-- The JSON response sent by this handler. -/
structure Response where
  status : Nat
  reply : String
  searchUrl : Option String
deriving DecidableEq, Repr

/-- `searchListings(location)`: early empty return — without touching the
database — when the location is absent; otherwise the `OR` query over
city/country/address, with errors converted to an empty result. -/
def searchListings (location : Option String) (db : Except Unit (List Post)) : SearchOutcome :=
  if !optTruthy location then ⟨false, 0, []⟩
  else
    match db with
    | .error _ => ⟨true, 0, []⟩
    | .ok rows =>
      let posts := rows.filter (locationMatches (location.getD ""))
      ⟨true, posts.length, posts⟩

/-- The outer catch's fixed 200 fallback. -/
def fallbackResponse : Response :=
  { status := 200
    reply := "I'm here to help you find your perfect property! You can ask me about listings in any city, get real estate advice, or search for specific property types. What would you like to know?"
    searchUrl := none }

/-- `chatWithAssistant(req, res)` of the single-turn controller; the second
component records whether a database query was issued. -/
def chatWithAssistant (message : Option String) (env : Env) : Response × Bool :=
  if invalidMessage message then
    ({ status := 400, reply := "Please provide a message.", searchUrl := none }, false)
  else
    match env.intentOutcome with
    | .error _ => (fallbackResponse, false)
    | .ok intentLoc =>
      let intent := intentLoc.1
      let location := intentLoc.2
      let searchCall :=
        if intent = "search" && optTruthy location then searchListings location env.db
        else ⟨false, 0, []⟩
      match env.gen with
      | .fail => (fallbackResponse, searchCall.queriedDb)
      | .noJsonMatch => (fallbackResponse, searchCall.queriedDb)
      | .badJson => (fallbackResponse, searchCall.queriedDb)
      | .parsed p =>
        -- Safety check: greeting/advice forces searchUrl to null; then the
        -- URL is rebuilt only when the (possibly nulled) searchUrl is
        -- truthy and a location is present.
        let p1 := if intent = "greeting" || intent = "advice" then { p with searchUrl := none } else p
        let p2 :=
          if optTruthy p1.searchUrl && optTruthy location then
            { p1 with searchUrl := some ("/list?city=" ++ encodeURIComponent (location.getD "")) }
          else p1
        ({ status := 200, reply := p2.reply, searchUrl := p2.searchUrl }, searchCall.queriedDb)

end AssistantController

/-! ### Concrete inputs used by witnesses and counterexamples -/

/-- An operation that fails once, then succeeds with 42. -/
def retrySuccFn : Nat → Except String Nat :=
  fun j => if j = 1 then .ok 42 else .error "boom"

/-- An operation that fails on every attempt, reporting the attempt index. -/
def retryFailFn : Nat → Except String Nat :=
  fun j => .error (toString j)

/-- A session store filled to the configured capacity. -/
def bigStore : SessionStore Nat :=
  (List.range 1000).map fun i => (i, freshSession 0)

/-- A listing row in Lagos. -/
def lagosPost : Post :=
  { id := 1, title := "2-bed flat", city := "Lagos", country := "Nigeria",
    address := "12 Marina Road", price := 450000, bedroom := 2, bathroom := 1,
    property := "apartment", type := "rent" }

/-- Environment in which the retried intent call fails on every attempt. -/
def failChatEnv : SessionAssistant.ChatEnv :=
  { intentUpstream := .error (), db := .ok [], gen := .fail }

/-- The store obtained from 21 consecutive requests that all take the
fallback path, against session `"s1"`. -/
def historyOverflowStore : SessionStore String :=
  (List.range 21).foldl
    (fun st _ =>
      (SessionAssistant.chatWithAssistant st (some "find me a flat") (some "s1") "gen"
        failChatEnv 0).store)
    []

/-- An upstream intent reply resolving to a plain greeting. -/
def greetingIntentJson : SessionAssistant.IntentJson :=
  { intent := some "greeting", location := none, propertyType := none,
    priceRange := none, bedrooms := none, action := none }

/-- A generation payload carrying a model-supplied (non-null) searchUrl. -/
def strayUrlPayload : SessionAssistant.GenPayload :=
  { reply := "Hello!", searchUrl := some "/list?city=Paris", suggestions := none,
    preferences := none }

/-- Environment: greeting intent, but the model volunteers a searchUrl. -/
def strayUrlEnv : SessionAssistant.ChatEnv :=
  { intentUpstream := .ok (some greetingIntentJson), db := .ok [], gen := .parsed strayUrlPayload }

/-- An upstream intent reply resolving to a search in Lagos. -/
def searchIntentJson : SessionAssistant.IntentJson :=
  { intent := some "search", location := some "Lagos", propertyType := none,
    priceRange := none, bedrooms := none, action := none }

/-- Environment: search intent with matching data, but generation fails on
every attempt. -/
def genFailEnv : SessionAssistant.ChatEnv :=
  { intentUpstream := .ok (some searchIntentJson), db := .ok [lagosPost], gen := .fail }

/-- A minimal generation environment whose every upstream stage fails. -/
def allFailEnv : SessionAssistant.ChatEnv :=
  { intentUpstream := .error (), db := .error (), gen := .fail }

/-- Single-turn controller environment whose every upstream stage fails. -/
def allFailEnvAC : AssistantController.Env :=
  { intentOutcome := .error (), db := .error (), gen := .fail }

/-- A listing row on Lagos Island matching every filter of the round-trip
witness. -/
def lagosIslandPost : Post :=
  { id := 2, title := "Island flat", city := "Lagos Island", country := "Nigeria",
    address := "1 Ahmadu Bello Way", price := 450000, bedroom := 2, bathroom := 2,
    property := "apartment", type := "rent" }

/-- An upstream intent reply with every filter populated, locating
"Lagos Island" (a location whose encoding exercises the `+` escape). -/
def searchFullIntentJson : SessionAssistant.IntentJson :=
  { intent := some "search", location := some "Lagos Island",
    propertyType := some "apartment",
    priceRange := some { min := some 100, max := some 5000000 }, bedrooms := some 2,
    action := some "rent" }

/-- Environment: fully-filtered search with one matching row and a parsed
generation payload. -/
def roundtripEnv : SessionAssistant.ChatEnv :=
  { intentUpstream := .ok (some searchFullIntentJson), db := .ok [lagosIslandPost],
    gen := .parsed
      { reply := "Found it!", searchUrl := none, suggestions := none, preferences := none } }

/-! ### Lemmas: retry wrapper -/

theorem retryAux_first_success (fn : Nat → Except ε α) (b : Nat) (j : Nat) :
    ∀ (i rem : Nat) (le : Option ε) (a : α), j < rem →
      fn (i + j) = .ok a →
      (∀ k, k < j → ∃ e, fn (i + k) = .error e) →
      retryAux fn b i rem le =
        ⟨.ok a, (List.range j).map (fun t => b * 2 ^ (i + t)), j + 1⟩ := by
  induction j with
  | zero =>
    intro i rem le a hj hok _
    obtain ⟨r, rfl⟩ : ∃ r, rem = r + 1 := ⟨rem - 1, by omega⟩
    rw [Nat.add_zero] at hok
    simp [retryAux, hok]
  | succ j ih =>
    intro i rem le a hj hok hfail
    obtain ⟨r, rfl⟩ : ∃ r, rem = r + 1 := ⟨rem - 1, by omega⟩
    obtain ⟨e, he⟩ := hfail 0 (by omega)
    rw [Nat.add_zero] at he
    have hr : r ≠ 0 := by omega
    have hok' : fn (i + 1 + j) = .ok a := by
      rw [show i + 1 + j = i + (j + 1) from by omega]; exact hok
    have hfail' : ∀ k, k < j → ∃ e, fn (i + 1 + k) = .error e := fun k hk => by
      rw [show i + 1 + k = i + (k + 1) from by omega]; exact hfail (k + 1) (by omega)
    simp only [retryAux, he, hr, if_false]
    rw [ih (i + 1) r (some e) a (by omega) hok' hfail']
    refine congrArg₂ _ ?_ rfl
    rw [List.range_succ_eq_map, List.map_cons, List.map_map]
    refine congrArg₂ _ (by rw [Nat.add_zero]) (List.map_congr_left fun t _ => ?_)
    simp only [Function.comp_apply]
    rw [show i + Nat.succ t = i + 1 + t from by omega]

theorem retryAux_all_fail (fn : Nat → Except ε α) (b : Nat) (rem : Nat) :
    ∀ (i : Nat) (le : Option ε) (eL : ε), 1 ≤ rem →
      (∀ k, k < rem → ∃ e, fn (i + k) = .error e) →
      fn (i + (rem - 1)) = .error eL →
      retryAux fn b i rem le =
        ⟨.error (some eL), (List.range (rem - 1)).map (fun t => b * 2 ^ (i + t)), rem⟩ := by
  induction rem with
  | zero => intro i le eL h; omega
  | succ r ih =>
    intro i le eL _ hfail hlast
    obtain ⟨e, he⟩ := hfail 0 (by omega)
    rw [Nat.add_zero] at he
    by_cases hr : r = 0
    · subst hr
      simp only [Nat.add_sub_cancel, Nat.add_zero] at hlast
      rw [hlast] at he
      injection he with he'
      simp [retryAux, hlast, he']
    · have hlast' : fn (i + 1 + (r - 1)) = .error eL := by
        rw [show i + 1 + (r - 1) = i + (r + 1 - 1) from by omega]; exact hlast
      have hfail' : ∀ k, k < r → ∃ e, fn (i + 1 + k) = .error e := fun k hk => by
        rw [show i + 1 + k = i + (k + 1) from by omega]; exact hfail (k + 1) (by omega)
      simp only [retryAux, he, hr, if_false]
      rw [ih (i + 1) (some e) eL (by omega) hfail' hlast']
      refine congrArg₂ _ ?_ rfl
      simp only [Nat.add_sub_cancel]
      rw [show r = (r - 1) + 1 from by omega, List.range_succ_eq_map, List.map_cons,
        List.map_map]
      refine congrArg₂ _ (by rw [Nat.add_zero]) (List.map_congr_left fun t _ => ?_)
      simp only [Function.comp_apply]
      rw [show i + Nat.succ t = i + 1 + t from by omega]

/-- C5: with `maxRetries ≥ 1`, `retryWithBackoff` invokes the operation,
retries on failure with delays `baseDelay * 2^i` before retry `i`, returns
the first successful result (after `j+1` invocations when attempt `j` is the
first success), and raises the last failure only after exhausting all
`maxRetries` attempts. -/
theorem retryWithBackoff_spec (fn : Nat → Except ε α) (m b : Nat) (hm : 1 ≤ m) :
    (∀ j a, j < m → fn j = .ok a → (∀ k, k < j → ∃ e, fn k = .error e) →
      retryWithBackoff fn (m : Int) b =
        ⟨.ok a, (List.range j).map (fun t => b * 2 ^ t), j + 1⟩)
    ∧ (∀ eL, (∀ k, k < m → ∃ e, fn k = .error e) → fn (m - 1) = .error eL →
      retryWithBackoff fn (m : Int) b =
        ⟨.error (some eL), (List.range (m - 1)).map (fun t => b * 2 ^ t), m⟩) := by
  have hconv : ((m : Int)).toNat = m := Int.toNat_ofNat m
  constructor
  · intro j a hj hok hfail
    unfold retryWithBackoff
    rw [hconv]
    have := retryAux_first_success fn b j 0 m none a hj (by simpa using hok)
      (fun k hk => by simpa using hfail k hk)
    simpa using this
  · intro eL hfail hlast
    unfold retryWithBackoff
    rw [hconv]
    have := retryAux_all_fail fn b m 0 none eL hm
      (fun k hk => by simpa using hfail k hk) (by simpa using hlast)
    simpa using this

/-- C5 witness: concrete runs of both clauses — first success on the second
attempt (one delay of 100 ms), and exhaustion of all three attempts (delays
100 and 200 ms, final error raised). -/
theorem retryWithBackoff_spec_witness :
    retryWithBackoff retrySuccFn (3 : Int) 100 = ⟨.ok 42, [100], 2⟩ ∧
    retryWithBackoff retryFailFn (3 : Int) 100 = ⟨.error (some "2"), [100, 200], 3⟩ := by
  constructor
  · have h := (retryWithBackoff_spec retrySuccFn 3 100 (by norm_num)).1 1 42 (by norm_num)
      rfl (fun k hk => ⟨"boom", by have hk0 : k = 0 := (by omega); subst hk0; rfl⟩)
    simpa using h
  · have h := (retryWithBackoff_spec retryFailFn 3 100 (by norm_num)).2 "2"
      (fun k _ => ⟨toString k, rfl⟩) rfl
    simpa using h

/-- C10: with `maxRetries ≤ 0` the loop never runs — the operation is never
invoked (zero attempts, and the result does not depend on the operation) and
the *uninitialized* `lastError` (`undefined`, modelled `none`) is thrown;
with `maxRetries ≥ 1` the operation is invoked at least once. -/
theorem retryWithBackoff_nonpositive (fn : Nat → Except ε α) (m : Int) (b : Nat) :
    (m ≤ 0 → retryWithBackoff fn m b = ⟨.error none, [], 0⟩)
    ∧ (1 ≤ m → 1 ≤ (retryWithBackoff fn m b).attempts) := by
  constructor
  · intro hm
    unfold retryWithBackoff
    rw [Int.toNat_of_nonpos hm]
    rfl
  · intro hm
    unfold retryWithBackoff
    obtain ⟨r, hr⟩ : ∃ r, m.toNat = r + 1 := ⟨m.toNat - 1, by omega⟩
    rw [hr]
    simp only [retryAux]
    cases h : fn 0 with
    | ok a => simp
    | error e =>
      by_cases hrz : r = 0
      · simp [hrz]
      · simp [hrz]

/-- C10 witness: `maxRetries = -2` and `= 0` give zero invocations and the
undefined throw; `maxRetries = 1` invokes the operation. -/
theorem retryWithBackoff_nonpositive_witness :
    retryWithBackoff retrySuccFn (-2 : Int) 7 = ⟨.error none, [], 0⟩ ∧
    retryWithBackoff retrySuccFn (0 : Int) 7 = ⟨.error none, [], 0⟩ ∧
    1 ≤ (retryWithBackoff retrySuccFn (1 : Int) 7).attempts := by
  refine ⟨?_, ?_, ?_⟩
  · exact (retryWithBackoff_nonpositive retrySuccFn (-2) 7).1 (by norm_num)
  · exact (retryWithBackoff_nonpositive retrySuccFn 0 7).1 (by norm_num)
  · exact (retryWithBackoff_nonpositive retrySuccFn 1 7).2 (by norm_num)


/-! ### Lemmas: session store -/

theorem lookupSession_mapSession [DecidableEq κ] (store : SessionStore κ) (k : κ)
    (f : Session → Session) :
    lookupSession (mapSession store k f) k = (lookupSession store k).map f := by
  induction store with
  | nil => rfl
  | cons p rest ih =>
    by_cases h : p.1 = k
    · simp [lookupSession, mapSession, h]
    · simpa [lookupSession, mapSession, h] using ih

theorem lookupSession_eq_none [DecidableEq κ] (store : SessionStore κ) (k : κ) :
    lookupSession store k = none ↔ ∀ p ∈ store, ¬(p.1 = k) := by
  induction store with
  | nil => simp [lookupSession]
  | cons p rest ih =>
    by_cases h : p.1 = k
    · simp [lookupSession, h]
    · simp [lookupSession, h, ih]

theorem hasKey_false_iff [DecidableEq κ] (store : SessionStore κ) (k : κ) :
    hasKey store k = false ↔ ∀ p ∈ store, ¬(p.1 = k) := by
  rw [← lookupSession_eq_none]
  simp [hasKey]

theorem mapSession_of_hasKey_false [DecidableEq κ] (store : SessionStore κ) (k : κ)
    (f : Session → Session) (h : hasKey store k = false) :
    mapSession store k f = store := by
  have h' := (hasKey_false_iff store k).1 h
  clear h
  induction store with
  | nil => rfl
  | cons p rest ih =>
    simp only [mapSession, List.map_cons] at ih ⊢
    rw [if_neg (h' p (by simp))]
    rw [ih (fun q hq => h' q (List.mem_cons_of_mem p hq))]

theorem hasKey_tail_false [DecidableEq κ] (store : SessionStore κ) (k : κ)
    (h : hasKey store k = false) : hasKey store.tail k = false := by
  rw [hasKey_false_iff] at h ⊢
  exact fun p hp => h p (List.mem_of_mem_tail hp)

theorem lookupSession_append [DecidableEq κ] (l1 l2 : SessionStore κ) (k : κ) :
    lookupSession (l1 ++ l2) k =
      match lookupSession l1 k with
      | some s => some s
      | none => lookupSession l2 k := by
  induction l1 with
  | nil => simp [lookupSession]
  | cons p rest ih =>
    by_cases h : p.1 = k
    · simp [lookupSession, h]
    · simpa [lookupSession, h] using ih

theorem lookupSession_append_self [DecidableEq κ] (store : SessionStore κ) (k : κ) (s : Session)
    (h : hasKey store k = false) :
    lookupSession (store ++ [(k, s)]) k = some s := by
  rw [lookupSession_append]
  have : lookupSession store k = none := by
    simpa [hasKey] using h
  rw [this]
  simp [lookupSession]

/-- On a missing key, `getSessionContext` leaves the evicted-or-kept prefix
untouched and appends the fresh session. -/
theorem getSessionContext_store_of_new [DecidableEq κ] (store : SessionStore κ) (k : κ)
    (now : Nat) (h : hasKey store k = false) :
    (getSessionContext store k now).1 =
      (if SESSION_CONFIG.maxSessions ≤ store.length then store.tail else store)
        ++ [(k, freshSession now)] := by
  unfold getSessionContext
  simp only [h, Bool.false_eq_true, if_false]
  set base := if SESSION_CONFIG.maxSessions ≤ store.length then store.tail else store with hbase
  have hb : hasKey base k = false := by
    rw [hbase]; split
    · exact hasKey_tail_false store k h
    · exact h
  show mapSession (base ++ [(k, freshSession now)]) k _ = _
  have hsplit : mapSession (base ++ [(k, freshSession now)]) k
        (fun s => { s with lastActivity := now }) =
      mapSession base k (fun s => { s with lastActivity := now })
        ++ mapSession [(k, freshSession now)] k (fun s => { s with lastActivity := now }) := by
    simp [mapSession]
  rw [hsplit, mapSession_of_hasKey_false base k _ hb]
  simp [mapSession, freshSession]

theorem getSessionContext_session_of_new [DecidableEq κ] (store : SessionStore κ) (k : κ)
    (now : Nat) (h : hasKey store k = false) :
    (getSessionContext store k now).2 = freshSession now := by
  have hstore := getSessionContext_store_of_new store k now h
  have hb : hasKey (if SESSION_CONFIG.maxSessions ≤ store.length then store.tail else store)
      k = false := by
    split
    · exact hasKey_tail_false store k h
    · exact h
  show (lookupSession (getSessionContext store k now).1 k).getD (freshSession now) = _
  rw [hstore, lookupSession_append_self _ _ _ hb]
  rfl

theorem lookupSession_rangeMap_none (s : Nat → Session) (n k : Nat) (hk : n ≤ k) :
    lookupSession ((List.range n).map fun i => (i, s i)) k = none := by
  rw [lookupSession_eq_none]
  intro p hp
  simp only [List.mem_map, List.mem_range] at hp
  obtain ⟨i, hi, rfl⟩ := hp
  simp only []
  omega

/-- C6: when the store holds exactly the configured maximum (1000) of
sessions and `get_or_create` sees a new identifier, exactly the
oldest-inserted session (the head of the insertion order) is evicted, a
fresh session with empty history and empty preferences is appended, and the
store stays at the capacity bound. -/
theorem sessionStore_capacity_eviction [DecidableEq κ] (store : SessionStore κ) (k : κ)
    (now : Nat) (hlen : store.length = SESSION_CONFIG.maxSessions)
    (habs : hasKey store k = false) :
    (getSessionContext store k now).1 = store.tail ++ [(k, freshSession now)] ∧
    ((getSessionContext store k now).1).length = SESSION_CONFIG.maxSessions ∧
    (getSessionContext store k now).2 = freshSession now ∧
    (freshSession now).history = [] ∧
    (freshSession now).preferences =
      { propertyType := none, priceRange := none, bedrooms := none, locations := [] } := by
  have hstore := getSessionContext_store_of_new store k now habs
  rw [if_pos (by omega)] at hstore
  refine ⟨hstore, ?_, getSessionContext_session_of_new store k now habs, rfl, rfl⟩
  rw [hstore]
  simp only [List.length_append, List.length_tail, hlen]
  simp [SESSION_CONFIG]

/-- C6 witness: a concrete store of 1000 sessions keyed `0..999`; creating
session `1000` evicts the oldest entry and keeps the store at 1000. -/
theorem sessionStore_capacity_eviction_witness :
    (getSessionContext bigStore 1000 0).1 = bigStore.tail ++ [(1000, freshSession 0)] ∧
    ((getSessionContext bigStore 1000 0).1).length = SESSION_CONFIG.maxSessions ∧
    (getSessionContext bigStore 1000 0).2 = freshSession 0 := by
  have h := sessionStore_capacity_eviction bigStore 1000 0
    (by simp [bigStore, SESSION_CONFIG])
    (by simp [hasKey, bigStore, lookupSession_rangeMap_none (fun _ => freshSession 0) 1000 1000 (le_refl 1000)])
  exact ⟨h.1, h.2.1, h.2.2.1⟩

/-! ### Lemmas: response status -/

theorem sa_status_200 [DecidableEq κ] (store : SessionStore κ) (message : Option String)
    (sessionId : Option κ) (genSid : κ) (env : SessionAssistant.ChatEnv) (now : Nat)
    (h : invalidMessage message = false) :
    (SessionAssistant.chatWithAssistant store message sessionId genSid env now).response.status
      = 200 := by
  unfold SessionAssistant.chatWithAssistant
  rw [if_neg (by simp [h])]
  cases env.intentUpstream with
  | error e => rfl
  | ok j => rfl

theorem ac_status_200 (message : Option String) (env : AssistantController.Env)
    (h : invalidMessage message = false) :
    (AssistantController.chatWithAssistant message env).1.status = 200 := by
  unfold AssistantController.chatWithAssistant
  rw [if_neg (by simp [h])]
  cases env.intentOutcome with
  | error e => rfl
  | ok il => cases env.gen <;> rfl

/-- C4: both chat handlers return 400 with the fixed message exactly when
the body message is absent/empty/whitespace-only, and 200 for every other
request regardless of which downstream stages fail — never a 5xx. -/
theorem chat_status_spec [DecidableEq κ] (store : SessionStore κ) (message : Option String)
    (sessionId : Option κ) (genSid : κ) (env : SessionAssistant.ChatEnv)
    (env2 : AssistantController.Env) (now : Nat) :
    (invalidMessage message = true →
      (SessionAssistant.chatWithAssistant store message sessionId genSid env now).response.status
          = 400 ∧
      (SessionAssistant.chatWithAssistant store message sessionId genSid env now).response.reply
          = "Please provide a message." ∧
      (AssistantController.chatWithAssistant message env2).1.status = 400 ∧
      (AssistantController.chatWithAssistant message env2).1.reply = "Please provide a message.")
    ∧ (invalidMessage message = false →
      (SessionAssistant.chatWithAssistant store message sessionId genSid env now).response.status
          = 200 ∧
      (AssistantController.chatWithAssistant message env2).1.status = 200) := by
  constructor
  · intro h
    unfold SessionAssistant.chatWithAssistant AssistantController.chatWithAssistant
    rw [if_pos h, if_pos h]
    exact ⟨rfl, rfl, rfl, rfl⟩
  · intro h
    exact ⟨sa_status_200 store message sessionId genSid env now h,
      ac_status_200 message env2 h⟩

/-- C4 witness: a whitespace-only message gives 400; a real message gives
200 in both variants even though every downstream stage fails. -/
theorem chat_status_spec_witness :
    (SessionAssistant.chatWithAssistant ([] : SessionStore String) (some "   ") none "g"
        allFailEnv 0).response.status = 400 ∧
    (SessionAssistant.chatWithAssistant ([] : SessionStore String) (some "find a flat") none "g"
        allFailEnv 0).response.status = 200 ∧
    (AssistantController.chatWithAssistant (some "find a flat") allFailEnvAC).1.status = 200 := by
  refine ⟨?_, ?_, ?_⟩
  · exact ((chat_status_spec ([] : SessionStore String) (some "   ") none "g" allFailEnv
      allFailEnvAC 0).1 (by decide)).1
  · exact ((chat_status_spec ([] : SessionStore String) (some "find a flat") none "g" allFailEnv
      allFailEnvAC 0).2 (by decide)).1
  · exact ((chat_status_spec ([] : SessionStore String) (some "find a flat") none "g" allFailEnv
      allFailEnvAC 0).2 (by decide)).2

/-! ### C9: intent resolver field defaults -/

/-- C9 counterexample: on the parse-error path the resolver returns only
`{ intent: 'greeting', location: null }`, leaving `propertyType`,
`priceRange`, `bedrooms` and `action` `undefined` — refuting the claim that
no field is ever left undefined. -/
theorem detectIntent_undef_on_parse_error :
    (SessionAssistant.detectIntent none).allDefined = false ∧
    (SessionAssistant.detectIntent none).propertyType = JSVal.undef ∧
    (SessionAssistant.detectIntent none).action = JSVal.undef := by
  exact ⟨rfl, rfl, rfl⟩

/-- C9 amended: on every *successfully parsed* upstream reply all fields are
defined, with the stated neutral defaults (`greeting`, `any`, `null`); on
the parse-error path only `intent` (`greeting`) and `location` (`null`) are
set and the remaining four fields stay undefined. -/
theorem detectIntent_defaults (r : SessionAssistant.IntentJson) :
    ((SessionAssistant.detectIntent (some r)).allDefined = true) ∧
    (r.intent = none → (SessionAssistant.detectIntent (some r)).intent = "greeting") ∧
    (r.propertyType = none →
      (SessionAssistant.detectIntent (some r)).propertyType = JSVal.val "any") ∧
    (r.action = none → (SessionAssistant.detectIntent (some r)).action = JSVal.val "any") ∧
    (r.priceRange = none → (SessionAssistant.detectIntent (some r)).priceRange = JSVal.null) ∧
    (r.bedrooms = none → (SessionAssistant.detectIntent (some r)).bedrooms = JSVal.null) ∧
    (r.location = none → (SessionAssistant.detectIntent (some r)).location = none) ∧
    ((SessionAssistant.detectIntent none).intent = "greeting" ∧
      (SessionAssistant.detectIntent none).location = none) := by
  refine ⟨?_, ?_, ?_, ?_, ?_, ?_, ?_, rfl, rfl⟩
  · simp only [SessionAssistant.detectIntent, SessionAssistant.ResolvedIntent.allDefined,
      Bool.and_eq_true, decide_eq_true_eq]
    refine ⟨⟨⟨by simp, ?_⟩, ?_⟩, by simp⟩
    · split <;> simp
    · split
      · split <;> simp
      · simp
  · intro h
    simp [SessionAssistant.detectIntent, SessionAssistant.strOrDefault, h]
  · intro h
    simp [SessionAssistant.detectIntent, SessionAssistant.strOrDefault, h]
  · intro h
    simp [SessionAssistant.detectIntent, SessionAssistant.strOrDefault, h]
  · intro h
    simp [SessionAssistant.detectIntent, h]
  · intro h
    simp [SessionAssistant.detectIntent, h]
  · intro h
    simp [SessionAssistant.detectIntent, jsOr, h]

/-- C9 amended witness: the empty parsed object takes every default. -/
theorem detectIntent_defaults_witness :
    (SessionAssistant.detectIntent
      (some { intent := none, location := none, propertyType := none, priceRange := none,
              bedrooms := none, action := none })).allDefined = true ∧
    (SessionAssistant.detectIntent
      (some { intent := none, location := none, propertyType := none, priceRange := none,
              bedrooms := none, action := none })).intent = "greeting" := by
  have h := detectIntent_defaults
    { intent := none, location := none, propertyType := none, priceRange := none,
      bedrooms := none, action := none }
  exact ⟨h.1, h.2.1 rfl⟩

/-! ### Lemmas: history and lastLocation through the pipeline steps -/

theorem lookupSession_of_hasKey_false [DecidableEq κ] (store : SessionStore κ) (k : κ)
    (h : hasKey store k = false) : lookupSession store k = none := by
  revert h
  unfold hasKey
  cases lookupSession store k <;> simp

theorem historyOf_mapSession_self [DecidableEq κ] (store : SessionStore κ) (k : κ)
    (f : Session → Session) (hf : ∀ s, (f s).history = s.history) :
    historyOf (mapSession store k f) k = historyOf store k := by
  unfold historyOf
  rw [lookupSession_mapSession]
  cases lookupSession store k <;> simp [hf]

theorem lastLocationOf_mapSession_self [DecidableEq κ] (store : SessionStore κ) (k : κ)
    (f : Session → Session) (hf : ∀ s, (f s).lastLocation = s.lastLocation) :
    lastLocationOf (mapSession store k f) k = lastLocationOf store k := by
  unfold lastLocationOf
  rw [lookupSession_mapSession]
  cases lookupSession store k <;> simp [hf]

theorem hasKey_mapSession_self [DecidableEq κ] (store : SessionStore κ) (k : κ)
    (f : Session → Session) :
    hasKey (mapSession store k f) k = hasKey store k := by
  unfold hasKey
  rw [lookupSession_mapSession]
  cases lookupSession store k <;> simp

theorem getSessionContext_store_of_existing [DecidableEq κ] (store : SessionStore κ) (k : κ)
    (now : Nat) (hk : hasKey store k = true) :
    (getSessionContext store k now).1 =
      mapSession store k (fun s => { s with lastActivity := now }) := by
  unfold getSessionContext
  simp only [hk, if_true]

/-- `getSessionContext` never changes the session's history or remembered
location (a fresh session has empty history and no location, matching the
absent case), and afterwards the key is always present. -/
theorem getSessionContext_preserve [DecidableEq κ] (store : SessionStore κ) (k : κ) (now : Nat) :
    historyOf (getSessionContext store k now).1 k = historyOf store k ∧
    lastLocationOf (getSessionContext store k now).1 k = lastLocationOf store k ∧
    hasKey (getSessionContext store k now).1 k = true := by
  by_cases hk : hasKey store k = true
  · rw [getSessionContext_store_of_existing store k now hk]
    refine ⟨historyOf_mapSession_self _ _ _ (fun s => rfl),
      lastLocationOf_mapSession_self _ _ _ (fun s => rfl), ?_⟩
    rw [hasKey_mapSession_self]
    exact hk
  · have hk' : hasKey store k = false := by simpa using hk
    have hnone := lookupSession_of_hasKey_false store k hk'
    rw [getSessionContext_store_of_new store k now hk']
    set base := if SESSION_CONFIG.maxSessions ≤ store.length then store.tail else store with hbase
    have hb : hasKey base k = false := by
      rw [hbase]; split
      · exact hasKey_tail_false store k hk'
      · exact hk'
    have happ := lookupSession_append_self base k (freshSession now) hb
    refine ⟨?_, ?_, ?_⟩
    · unfold historyOf
      rw [happ, hnone]
      rfl
    · unfold lastLocationOf
      rw [happ, hnone]
      rfl
    · unfold hasKey
      rw [happ]
      rfl

theorem historyOf_pushHistory [DecidableEq κ] (store : SessionStore κ) (k : κ) (t : Turn)
    (hk : hasKey store k = true) :
    historyOf (pushHistory store k t) k = historyOf store k ++ [t] := by
  unfold pushHistory historyOf
  rw [lookupSession_mapSession]
  revert hk
  unfold hasKey
  cases lookupSession store k <;> simp

theorem lastLocationOf_pushHistory [DecidableEq κ] (store : SessionStore κ) (k : κ) (t : Turn) :
    lastLocationOf (pushHistory store k t) k = lastLocationOf store k :=
  lastLocationOf_mapSession_self _ _ _ (fun _ => rfl)

theorem hasKey_pushHistory [DecidableEq κ] (store : SessionStore κ) (k : κ) (t : Turn) :
    hasKey (pushHistory store k t) k = hasKey store k :=
  hasKey_mapSession_self _ _ _

theorem historyOf_updateSessionContext [DecidableEq κ] (store : SessionStore κ) (k : κ)
    (u : SessionUpdates) :
    historyOf (updateSessionContext store k u) k =
      (historyOf store k).drop
        ((historyOf store k).length - SESSION_CONFIG.maxHistoryLength) := by
  unfold updateSessionContext historyOf
  rw [lookupSession_mapSession]
  cases h : lookupSession store k with
  | none => simp
  | some s =>
    simp only [Option.map_some', Option.getD_some]
    by_cases hlen : SESSION_CONFIG.maxHistoryLength < s.history.length
    · simp [hlen]
    · simp only [hlen, if_false]
      rw [show s.history.length - SESSION_CONFIG.maxHistoryLength = 0 from by omega]
      simp

theorem context_lastLocation [DecidableEq κ] (store : SessionStore κ) (k : κ) (now : Nat) :
    ((lookupSession store k).getD (freshSession now)).lastLocation = lastLocationOf store k := by
  cases h : lookupSession store k <;> simp [lastLocationOf, h, freshSession]

/-- `applyPrefsMutation` touches only preferences and `lastActivity`. -/
theorem applyPrefsMutation_preserve [DecidableEq κ] (store : SessionStore κ) (k : κ)
    (intentData : SessionAssistant.ResolvedIntent) (patch : SessionAssistant.PrefsPatch)
    (now : Nat) :
    historyOf (SessionAssistant.applyPrefsMutation store k intentData patch now) k
        = historyOf store k ∧
    hasKey (SessionAssistant.applyPrefsMutation store k intentData patch now) k
        = true ∧
    lastLocationOf (SessionAssistant.applyPrefsMutation store k intentData patch now) k
        = lastLocationOf store k := by
  unfold SessionAssistant.applyPrefsMutation
  obtain ⟨h1, h2, h3⟩ := getSessionContext_preserve store k now
  refine ⟨?_, ?_, ?_⟩
  · simp only []
    rw [historyOf_mapSession_self]
    · exact h1
    · exact fun s => rfl
  · simp only []
    rw [hasKey_mapSession_self]
    exact h3
  · simp only []
    rw [lastLocationOf_mapSession_self]
    · exact h2
    · exact fun s => rfl

/-- `generateResponse` never changes the session's history, key presence, or
remembered location. -/
theorem generateResponse_preserve [DecidableEq κ] (store : SessionStore κ) (k : κ)
    (intentData : SessionAssistant.ResolvedIntent) (g : SessionAssistant.GenOutcome) (now : Nat)
    (hk : hasKey store k = true) :
    historyOf (SessionAssistant.generateResponse store k intentData g now).2 k
        = historyOf store k ∧
    hasKey (SessionAssistant.generateResponse store k intentData g now).2 k = true ∧
    lastLocationOf (SessionAssistant.generateResponse store k intentData g now).2 k
        = lastLocationOf store k := by
  cases g with
  | fail => exact ⟨rfl, hk, rfl⟩
  | unparseable => exact ⟨rfl, hk, rfl⟩
  | salvaged p => exact ⟨rfl, hk, rfl⟩
  | parsed p =>
    cases hp : p.preferences with
    | none =>
      unfold SessionAssistant.generateResponse
      simp [hp, hk]
    | some patch =>
      unfold SessionAssistant.generateResponse
      simp only [hp]
      exact applyPrefsMutation_preserve store k intentData patch now

/-- Unfolding of the chat handler on the intent-failure (fallback) path. -/
theorem sa_chat_err_eq [DecidableEq κ] (store : SessionStore κ) (message : Option String)
    (sessionId : Option κ) (genSid : κ) (env : SessionAssistant.ChatEnv) (now : Nat)
    (hmsg : invalidMessage message = false) (herr : env.intentUpstream = .error ()) :
    SessionAssistant.chatWithAssistant store message sessionId genSid env now =
      { store := pushHistory (getSessionContext store (sessionId.getD genSid) now).1
          (sessionId.getD genSid) { role := "user", content := message.getD "" }
        response := { status := 200
                      reply := "I'm having a moment! Let's try that again. What kind of property are you looking for?"
                      searchUrl := none
                      suggestions := some ["Apartments in Lagos", "Houses for rent", "Properties under ₦5M"]
                      sessionId := some (sessionId.getD genSid) }
        dbQueried := false } := by
  unfold SessionAssistant.chatWithAssistant
  rw [if_neg (by simp [hmsg]), herr]

/-- Unfolding of the chat handler on the intent-resolved path. -/
theorem sa_chat_ok_eq [DecidableEq κ] (store : SessionStore κ) (message : Option String)
    (sessionId : Option κ) (genSid : κ) (env : SessionAssistant.ChatEnv) (now : Nat)
    (j : Option SessionAssistant.IntentJson)
    (hmsg : invalidMessage message = false) (hok : env.intentUpstream = .ok j) :
    SessionAssistant.chatWithAssistant store message sessionId genSid env now =
      (let sid := sessionId.getD genSid
       let store2 := pushHistory (getSessionContext store sid now).1 sid
         { role := "user", content := message.getD "" }
       let intentData := SessionAssistant.detectIntent j
       let context := (lookupSession store2 sid).getD (freshSession now)
       let searchLocation := jsOr intentData.location context.lastLocation
       let doSearch := (intentData.intent = "search" || intentData.intent = "follow_up" ||
           intentData.intent = "clarification") && optTruthy searchLocation
       let searchResults :=
         if doSearch then
           SessionAssistant.searchListings
             { location := searchLocation, propertyType := intentData.propertyType,
               priceRange := intentData.priceRange, bedrooms := intentData.bedrooms,
               action := intentData.action } env.db
         else ⟨false, 0, []⟩
       let gr := SessionAssistant.generateResponse store2 sid intentData env.gen now
       let store4 := pushHistory gr.2 sid { role := "model", content := gr.1.reply }
       let store5 := updateSessionContext store4 sid
         { lastIntent := some intentData.intent,
           lastLocation := jsOr intentData.location context.lastLocation }
       { store := store5
         response := { status := 200, reply := gr.1.reply, searchUrl := gr.1.searchUrl,
                       suggestions := gr.1.suggestions, sessionId := some sid }
         dbQueried := searchResults.queriedDb }) := by
  unfold SessionAssistant.chatWithAssistant
  rw [if_neg (by simp [hmsg]), hok]

/-- C2 amended: after any request whose pipeline reaches the final
session-update (the intent stage resolved), the session's history is the
previous history plus the user and model turns, trimmed from the *front* to
the configured maximum of 20 — so it is always ≤ 20 with the retained tail
in order.  A request that takes the fallback path (intent stage failed after
all retries) appends the user turn *without* trimming, so the bound can be
exceeded by one turn per consecutive failing request. -/
theorem history_trim_spec [DecidableEq κ] (store : SessionStore κ) (message : Option String)
    (sessionId : Option κ) (genSid : κ) (env : SessionAssistant.ChatEnv) (now : Nat)
    (hmsg : invalidMessage message = false) :
    (∀ j, env.intentUpstream = .ok j →
      ∃ r,
        historyOf
            (SessionAssistant.chatWithAssistant store message sessionId genSid env now).store
            (sessionId.getD genSid) =
          (historyOf store (sessionId.getD genSid) ++
              [Turn.mk "user" (message.getD ""), Turn.mk "model" r]).drop
            ((historyOf store (sessionId.getD genSid)).length + 2 -
              SESSION_CONFIG.maxHistoryLength) ∧
        (historyOf
            (SessionAssistant.chatWithAssistant store message sessionId genSid env now).store
            (sessionId.getD genSid)).length ≤ SESSION_CONFIG.maxHistoryLength)
    ∧ (env.intentUpstream = .error () →
      historyOf (SessionAssistant.chatWithAssistant store message sessionId genSid env now).store
          (sessionId.getD genSid) =
        historyOf store (sessionId.getD genSid) ++ [Turn.mk "user" (message.getD "")]) := by
  constructor
  · intro j hok
    rw [sa_chat_ok_eq store message sessionId genSid env now j hmsg hok]
    simp only []
    set sid := sessionId.getD genSid with hsid
    set store2 := pushHistory (getSessionContext store sid now).1 sid
      { role := "user", content := message.getD "" } with hstore2
    set gr := SessionAssistant.generateResponse store2 sid (SessionAssistant.detectIntent j)
      env.gen now with hgr
    have hk2 : hasKey store2 sid = true := by
      rw [hstore2, hasKey_pushHistory]
      exact (getSessionContext_preserve store sid now).2.2
    have h2 : historyOf store2 sid =
        historyOf store sid ++ [Turn.mk "user" (message.getD "")] := by
      rw [hstore2, historyOf_pushHistory _ _ _ (getSessionContext_preserve store sid now).2.2,
        (getSessionContext_preserve store sid now).1]
    obtain ⟨hp1, hp2, _⟩ := generateResponse_preserve store2 sid
      (SessionAssistant.detectIntent j) env.gen now hk2
    refine ⟨gr.1.reply, ?_, ?_⟩
    · rw [historyOf_updateSessionContext,
        historyOf_pushHistory _ _ _ hp2, hp1, h2, List.append_assoc]
      simp only [List.length_append, List.length_cons, List.length_nil]
      rfl
    · rw [historyOf_updateSessionContext]
      simp only [List.length_drop]
      omega
  · intro herr
    rw [sa_chat_err_eq store message sessionId genSid env now hmsg herr]
    simp only []
    rw [historyOf_pushHistory _ _ _ (getSessionContext_preserve store
      (sessionId.getD genSid) now).2.2,
      (getSessionContext_preserve store (sessionId.getD genSid) now).1]

/-- C2 amended witness: one successful turn against an empty store leaves a
two-turn history (≤ 20). -/
theorem history_trim_spec_witness :
    ∃ r,
      historyOf (SessionAssistant.chatWithAssistant ([] : SessionStore String) (some "hello")
          (some "s") "g" strayUrlEnv 0).store "s" =
        (historyOf ([] : SessionStore String) "s" ++
            [Turn.mk "user" "hello", Turn.mk "model" r]).drop
          ((historyOf ([] : SessionStore String) "s").length + 2 -
            SESSION_CONFIG.maxHistoryLength) ∧
      (historyOf (SessionAssistant.chatWithAssistant ([] : SessionStore String) (some "hello")
          (some "s") "g" strayUrlEnv 0).store "s").length ≤ SESSION_CONFIG.maxHistoryLength := by
  have h := (history_trim_spec ([] : SessionStore String) (some "hello") (some "s") "g"
    strayUrlEnv 0 (by decide)).1 (some greetingIntentJson) rfl
  simpa using h

set_option maxRecDepth 8000 in
/-- C2 counterexample: starting from an empty store, 21 consecutive requests
whose intent stage fails (fallback path) leave session `"s1"` with 21
history entries — exceeding the configured maximum of 20, refuting the claim
for requests taking the fallback path. -/
theorem history_exceeds_max_on_failures :
    SESSION_CONFIG.maxHistoryLength < (historyOf historyOverflowStore "s1").length := by
  decide

/-! ### C3: absent-location searches -/

/-- C3 counterexample: the session-variant adapter has no guard on an absent
location — called with `location: null` and neutral remaining filters it
issues the (take-10-bounded, but otherwise unfiltered) query and returns
whatever the store holds, refuting "empty result and no query issued" for
that adapter. -/
theorem sessionSearch_unguarded_on_absent_location :
    SessionAssistant.searchListings
        { location := none, propertyType := JSVal.val "any", priceRange := JSVal.null,
          bedrooms := JSVal.null, action := JSVal.val "any" } (.ok [lagosPost]) =
      { queriedDb := true, count := 1, posts := [lagosPost] } := by
  decide

/-- C3 amended: the single-turn adapter returns `{count: 0, posts: []}`
without issuing a query when the location is absent; the session-variant
adapter itself has no such guard, but its caller only invokes it when a
location (from the current intent or remembered from the session) is
present, so a request without either issues no query. -/
theorem search_requires_location [DecidableEq κ] (loc : Option String)
    (db : Except Unit (List Post)) (store : SessionStore κ) (message : Option String)
    (sessionId : Option κ) (genSid : κ) (env : SessionAssistant.ChatEnv) (now : Nat)
    (j : Option SessionAssistant.IntentJson)
    (hloc : optTruthy loc = false)
    (hmsg : invalidMessage message = false)
    (hok : env.intentUpstream = .ok j)
    (hjloc : optTruthy (SessionAssistant.detectIntent j).location = false)
    (hlast : optTruthy (lastLocationOf store (sessionId.getD genSid)) = false) :
    AssistantController.searchListings loc db = { queriedDb := false, count := 0, posts := [] } ∧
    (SessionAssistant.chatWithAssistant store message sessionId genSid env now).dbQueried
      = false := by
  constructor
  · unfold AssistantController.searchListings
    rw [if_pos (by simp [hloc])]
  · rw [sa_chat_ok_eq store message sessionId genSid env now j hmsg hok]
    simp only []
    set sid := sessionId.getD genSid with hsid
    have hctx : ((lookupSession (pushHistory (getSessionContext store sid now).1 sid
        (Turn.mk "user" (message.getD ""))) sid).getD (freshSession now)).lastLocation
        = lastLocationOf store sid := by
      rw [context_lastLocation, lastLocationOf_pushHistory,
        (getSessionContext_preserve store sid now).2.1]
    have hsearch : optTruthy (jsOr (SessionAssistant.detectIntent j).location
        ((lookupSession (pushHistory (getSessionContext store sid now).1 sid
          (Turn.mk "user" (message.getD ""))) sid).getD (freshSession now)).lastLocation)
        = false := by
      rw [hctx]
      unfold jsOr
      rw [if_neg (by simp [hjloc])]
      exact hlast
    rw [hsearch]
    simp

/-- C3 amended witness: a concrete absent-location call of the single-turn
adapter, and a concrete greeting request (no current or remembered
location) issuing no query. -/
theorem search_requires_location_witness :
    AssistantController.searchListings none (.ok [lagosPost])
        = { queriedDb := false, count := 0, posts := [] } ∧
    (SessionAssistant.chatWithAssistant ([] : SessionStore String) (some "hello") (some "s") "g"
        strayUrlEnv 0).dbQueried = false := by
  have h := search_requires_location none (.ok [lagosPost]) ([] : SessionStore String)
    (some "hello") (some "s") "g" strayUrlEnv 0 (some greetingIntentJson)
    rfl (by decide) rfl rfl rfl
  exact h

/-! ### C1: searchUrl for greeting/advice intents -/

/-- C1 counterexample: in the session-based handler there is no
greeting/advice nulling — with resolved intent `greeting` and a generation
payload carrying `searchUrl: "/list?city=Paris"`, the response returns that
model-supplied URL verbatim instead of `null`. -/
theorem greeting_searchUrl_not_nulled :
    (SessionAssistant.chatWithAssistant ([] : SessionStore String) (some "hello") (some "s") "g"
        strayUrlEnv 0).response.searchUrl = some "/list?city=Paris" ∧
    ¬ (SessionAssistant.chatWithAssistant ([] : SessionStore String) (some "hello") (some "s") "g"
        strayUrlEnv 0).response.searchUrl = none := by
  constructor
  · decide
  · decide

/-- C1 amended: the single-turn controller does force `searchUrl` to `null`
whenever the resolved intent is `greeting` or `advice`, regardless of the
generation outcome; the session-based controller instead passes the parsed
payload's `searchUrl` through untouched for those intents (its only rewrite
applies to `search` with a location; its fallback paths do set `null`). -/
theorem greeting_advice_searchUrl [DecidableEq κ] (message : Option String)
    (env2 : AssistantController.Env) (i : String) (loc : Option String)
    (store : SessionStore κ) (sessionId : Option κ) (genSid : κ)
    (env : SessionAssistant.ChatEnv) (now : Nat)
    (j : Option SessionAssistant.IntentJson) (p : SessionAssistant.GenPayload)
    (hmsg : invalidMessage message = false)
    (hAC : env2.intentOutcome = .ok (i, loc))
    (hi : i = "greeting" ∨ i = "advice")
    (hok : env.intentUpstream = .ok j)
    (hSAi : (SessionAssistant.detectIntent j).intent = "greeting" ∨
      (SessionAssistant.detectIntent j).intent = "advice")
    (hgen : env.gen = .parsed p) :
    (AssistantController.chatWithAssistant message env2).1.searchUrl = none ∧
    (SessionAssistant.chatWithAssistant store message sessionId genSid env now).response.searchUrl
      = p.searchUrl := by
  constructor
  · unfold AssistantController.chatWithAssistant
    rw [if_neg (by simp [hmsg]), hAC]
    simp only []
    cases env2.gen with
    | fail => rfl
    | noJsonMatch => rfl
    | badJson => rfl
    | parsed q =>
      have hcond : (i = "greeting" || i = "advice") = true := by
        rcases hi with h | h <;> simp [h]
      simp only [hcond, if_true]
      rw [if_neg (by simp [optTruthy])]
  · rw [sa_chat_ok_eq store message sessionId genSid env now j hmsg hok]
    simp only [hgen]
    have hne : ¬ ((SessionAssistant.detectIntent j).intent = "search") := by
      rcases hSAi with h | h <;> simp [h]
    unfold SessionAssistant.generateResponse
    simp only []
    rw [if_neg (by simp [hne])]

/-- C1 amended witness: concrete greeting requests in both variants — the
single-turn controller nulls the model-supplied URL, the session-based one
returns it verbatim. -/
theorem greeting_advice_searchUrl_witness :
    (AssistantController.chatWithAssistant (some "hello")
        { intentOutcome := .ok ("greeting", none), db := .ok [],
          gen := .parsed { reply := "Hi!", searchUrl := some "/list?city=Paris" } }).1.searchUrl
      = none ∧
    (SessionAssistant.chatWithAssistant ([] : SessionStore String) (some "hello") (some "s") "g"
        strayUrlEnv 0).response.searchUrl = strayUrlPayload.searchUrl := by
  exact greeting_advice_searchUrl (some "hello")
    { intentOutcome := .ok ("greeting", none), db := .ok [],
      gen := .parsed { reply := "Hi!", searchUrl := some "/list?city=Paris" } }
    "greeting" none ([] : SessionStore String) (some "s") "g" strayUrlEnv 0
    (some greetingIntentJson) strayUrlPayload
    (by decide) rfl (Or.inl rfl) rfl (Or.inl rfl) rfl

/-! ### C7: database errors degrade to empty results -/

/-- C7: when the listing store query raises, both search adapters return
`{count: 0, posts: []}` instead of propagating (the session-variant adapter
catches after issuing the query; the single-turn one only if it queried at
all), and a valid-message chat request against the erroring store still
answers 200. -/
theorem search_error_degrades [DecidableEq κ] (f : SessionAssistant.Filters)
    (loc : Option String) (store : SessionStore κ) (message : Option String)
    (sessionId : Option κ) (genSid : κ) (env : SessionAssistant.ChatEnv)
    (env2 : AssistantController.Env) (now : Nat)
    (hmsg : invalidMessage message = false)
    (_hdb : env.db = .error ()) (_hdb2 : env2.db = .error ()) :
    SessionAssistant.searchListings f (.error ())
        = { queriedDb := true, count := 0, posts := [] } ∧
    (AssistantController.searchListings loc (.error ())).count = 0 ∧
    (AssistantController.searchListings loc (.error ())).posts = [] ∧
    (SessionAssistant.chatWithAssistant store message sessionId genSid env now).response.status
        = 200 ∧
    (AssistantController.chatWithAssistant message env2).1.status = 200 := by
  refine ⟨rfl, ?_, ?_, sa_status_200 store message sessionId genSid env now hmsg,
    ac_status_200 message env2 hmsg⟩
  · unfold AssistantController.searchListings
    split <;> rfl
  · unfold AssistantController.searchListings
    split <;> rfl

/-- C7 witness: a concrete erroring-store search and a concrete 200 reply. -/
theorem search_error_degrades_witness :
    SessionAssistant.searchListings
        { location := some "Lagos", propertyType := JSVal.val "any", priceRange := JSVal.null,
          bedrooms := JSVal.null, action := JSVal.val "any" } (.error ())
        = { queriedDb := true, count := 0, posts := [] } ∧
    (SessionAssistant.chatWithAssistant ([] : SessionStore String) (some "flats in Lagos")
        (some "s") "g"
        { intentUpstream := .ok (some searchIntentJson), db := .error (), gen := .fail }
        0).response.status = 200 := by
  have h := search_error_degrades
    { location := some "Lagos", propertyType := JSVal.val "any", priceRange := JSVal.null,
      bedrooms := JSVal.null, action := JSVal.val "any" }
    (some "Lagos") ([] : SessionStore String) (some "flats in Lagos") (some "s") "g"
    { intentUpstream := .ok (some searchIntentJson), db := .error (), gen := .fail }
    allFailEnvAC 0 (by decide) rfl rfl
  exact ⟨h.1, h.2.2.2.1⟩

/-! ### Lemmas: urlencoded round-trip -/

theorem char_toNat_lt (c : Char) : c.toNat < 0x110000 := by
  rcases c.valid with h | ⟨_, h2⟩
  · exact Nat.lt_trans h (by norm_num)
  · exact h2

theorem utf8EncodeChar_lt_256 (n : Nat) (hn : n < 0x110000) :
    ∀ b ∈ utf8EncodeChar n, b < 256 := by
  intro b hb
  unfold utf8EncodeChar at hb
  split_ifs at hb with h1 h2 h3
  · simp at hb; omega
  · simp at hb; rcases hb with rfl | rfl <;> omega
  · simp at hb; rcases hb with rfl | rfl | rfl <;> omega
  · simp at hb; rcases hb with rfl | rfl | rfl | rfl <;> omega

theorem hexVal_hexDigit : ∀ v, v < 16 → hexVal (hexDigit v) = some v := by decide

theorem hexVal2_hexDigit (b : Nat) (hb : b < 256) :
    hexVal2 (hexDigit (b / 16)) (hexDigit (b % 16)) = some b := by
  unfold hexVal2
  rw [hexVal_hexDigit _ (by omega), hexVal_hexDigit _ (by omega)]
  simp only []
  rw [show 16 * (b / 16) + b % 16 = b from by omega]

theorem pctDecodeBytes_pctTriple (b : Nat) (hb : b < 256) (rest : List Char) :
    pctDecodeBytes (pctTriple b ++ rest) = (pctDecodeBytes rest).map (b :: ·) := by
  show pctDecodeBytes ('%' :: hexDigit (b / 16) :: hexDigit (b % 16) :: rest) = _
  conv_lhs => unfold pctDecodeBytes
  rw [if_neg (by decide), if_pos rfl]
  simp only [hexVal2_hexDigit b hb]

theorem pctDecodeBytes_pctTriples (bs : List Nat) (hbs : ∀ b ∈ bs, b < 256)
    (rest : List Char) :
    pctDecodeBytes (bs.flatMap pctTriple ++ rest) = (pctDecodeBytes rest).map (bs ++ ·) := by
  induction bs with
  | nil =>
    simp only [List.flatMap_nil, List.nil_append]
    cases pctDecodeBytes rest <;> rfl
  | cons b bs ih =>
    rw [List.flatMap_cons, List.append_assoc, pctDecodeBytes_pctTriple b (hbs b (by simp)),
      ih (fun x hx => hbs x (by simp [hx]))]
    cases pctDecodeBytes rest <;> rfl

theorem isFormUnreserved_ascii (c : Char) (h : isFormUnreserved c = true) : c.toNat < 0x80 := by
  unfold isFormUnreserved at h
  simp only [Bool.or_eq_true, Bool.and_eq_true, decide_eq_true_eq] at h
  rcases h with ((((((h | h) | h) | rfl) | rfl) | rfl) | rfl)
  · omega
  · omega
  · omega
  · decide
  · decide
  · decide
  · decide

theorem pctDecodeBytes_formEncodeChar (c : Char) (rest : List Char) :
    pctDecodeBytes (formEncodeChar c ++ rest) =
      (pctDecodeBytes rest).map (utf8EncodeChar c.toNat ++ ·) := by
  by_cases hu : isFormUnreserved c = true
  · have hplus : ¬ (c = '+') := fun hh => by subst hh; exact absurd hu (by decide)
    have hpct : ¬ (c = '%') := fun hh => by subst hh; exact absurd hu (by decide)
    rw [show formEncodeChar c = [c] from by unfold formEncodeChar; rw [if_pos hu]]
    show pctDecodeBytes (c :: rest) = _
    conv_lhs => unfold pctDecodeBytes
    rw [if_neg hplus, if_neg hpct]
  · by_cases hsp : c = ' '
    · subst hsp
      rw [show formEncodeChar ' ' = ['+'] from by decide]
      show pctDecodeBytes ('+' :: rest) = _
      conv_lhs => unfold pctDecodeBytes
      rw [if_pos rfl, show utf8EncodeChar (Char.toNat ' ') = [0x20] from by decide]
      rfl
    · rw [show formEncodeChar c = (utf8EncodeChar c.toNat).flatMap pctTriple from by
        unfold formEncodeChar; rw [if_neg (by simpa using hu), if_neg hsp]]
      exact pctDecodeBytes_pctTriples _ (utf8EncodeChar_lt_256 c.toNat (char_toNat_lt c)) rest

theorem pctDecodeBytes_formEncodeList (l : List Char) :
    pctDecodeBytes (formEncodeList l) = some (l.flatMap fun c => utf8EncodeChar c.toNat) := by
  induction l with
  | nil => rfl
  | cons c l ih =>
    rw [show formEncodeList (c :: l) = formEncodeChar c ++ formEncodeList l from rfl,
      pctDecodeBytes_formEncodeChar, ih]
    rfl

theorem isCont_true (b : Nat) (h1 : 0x80 ≤ b) (h2 : b < 0xC0) : isCont b = true := by
  simp only [isCont, Bool.and_eq_true, decide_eq_true_eq]
  omega

theorem utf8Decode_cons_nil (b : Nat) :
    utf8Decode [b] =
      if b < 0x80 then (utf8Decode []).map (Char.ofNat b :: ·)
      else if b < 0xC0 then none
      else if b < 0xE0 then none
      else if b < 0xF0 then none
      else if b < 0xF8 then none
      else none := rfl

theorem utf8Decode_cons_cons (b b2 : Nat) (rest : List Nat) :
    utf8Decode (b :: b2 :: rest) =
      if b < 0x80 then (utf8Decode (b2 :: rest)).map (Char.ofNat b :: ·)
      else if b < 0xC0 then none
      else if b < 0xE0 then
        if isCont b2 then
          (utf8Decode rest).map (Char.ofNat ((b - 0xC0) * 0x40 + (b2 - 0x80)) :: ·)
        else none
      else if b < 0xF0 then
        (match rest with
         | b3 :: rest3 =>
           if isCont b2 && isCont b3 then
             (utf8Decode rest3).map
               (Char.ofNat ((b - 0xE0) * 0x1000 + (b2 - 0x80) * 0x40 + (b3 - 0x80)) :: ·)
           else none
         | _ => none)
      else if b < 0xF8 then
        (match rest with
         | b3 :: b4 :: rest4 =>
           if isCont b2 && isCont b3 && isCont b4 then
             (utf8Decode rest4).map
               (Char.ofNat ((b - 0xF0) * 0x40000 + (b2 - 0x80) * 0x1000 +
                 (b3 - 0x80) * 0x40 + (b4 - 0x80)) :: ·)
           else none
         | _ => none)
      else none := by
  cases rest with
  | nil => rfl
  | cons b3 rest2 =>
    cases rest2 with
    | nil => rfl
    | cons b4 rest3 => rfl

theorem utf8Decode_single (b : Nat) (hb : b < 0x80) (rest : List Nat) :
    utf8Decode (b :: rest) = (utf8Decode rest).map (Char.ofNat b :: ·) := by
  cases rest with
  | nil => rw [utf8Decode_cons_nil, if_pos hb]
  | cons b2 rest => rw [utf8Decode_cons_cons, if_pos hb]

theorem utf8Decode_encodeChar (c : Char) (rest : List Nat) :
    utf8Decode (utf8EncodeChar c.toNat ++ rest) = (utf8Decode rest).map (c :: ·) := by
  have hval := char_toNat_lt c
  by_cases h1 : c.toNat < 0x80
  · rw [show utf8EncodeChar c.toNat = [c.toNat] from by unfold utf8EncodeChar; rw [if_pos h1]]
    show utf8Decode (c.toNat :: rest) = _
    rw [utf8Decode_single _ h1, Char.ofNat_toNat]
  · by_cases h2 : c.toNat < 0x800
    · rw [show utf8EncodeChar c.toNat = [0xC0 + c.toNat / 0x40, 0x80 + c.toNat % 0x40] from by
        unfold utf8EncodeChar; rw [if_neg h1, if_pos h2]]
      show utf8Decode ((0xC0 + c.toNat / 0x40) :: (0x80 + c.toNat % 0x40) :: rest) = _
      rw [utf8Decode_cons_cons, if_neg (by omega), if_neg (by omega), if_pos (by omega),
        if_pos (isCont_true _ (by omega) (by omega))]
      simp only [show (0xC0 + c.toNat / 0x40 - 0xC0) * 0x40 + (0x80 + c.toNat % 0x40 - 0x80)
          = c.toNat from by omega, Char.ofNat_toNat]
    · by_cases h3 : c.toNat < 0x10000
      · rw [show utf8EncodeChar c.toNat = [0xE0 + c.toNat / 0x1000,
            0x80 + c.toNat / 0x40 % 0x40, 0x80 + c.toNat % 0x40] from by
          unfold utf8EncodeChar; rw [if_neg h1, if_neg h2, if_pos h3]]
        show utf8Decode ((0xE0 + c.toNat / 0x1000) :: (0x80 + c.toNat / 0x40 % 0x40) ::
          (0x80 + c.toNat % 0x40) :: rest) = _
        rw [utf8Decode_cons_cons, if_neg (by omega), if_neg (by omega), if_neg (by omega),
          if_pos (by omega)]
        simp only []
        rw [if_pos (show (isCont (0x80 + c.toNat / 0x40 % 0x40) &&
            isCont (0x80 + c.toNat % 0x40)) = true by
          rw [isCont_true _ (by omega) (by omega), isCont_true _ (by omega) (by omega)]; rfl)]
        simp only [show (0xE0 + c.toNat / 0x1000 - 0xE0) * 0x1000 +
            (0x80 + c.toNat / 0x40 % 0x40 - 0x80) * 0x40 + (0x80 + c.toNat % 0x40 - 0x80)
            = c.toNat from by omega, Char.ofNat_toNat]
      · rw [show utf8EncodeChar c.toNat = [0xF0 + c.toNat / 0x40000,
            0x80 + c.toNat / 0x1000 % 0x40, 0x80 + c.toNat / 0x40 % 0x40,
            0x80 + c.toNat % 0x40] from by
          unfold utf8EncodeChar; rw [if_neg h1, if_neg h2, if_neg h3]]
        show utf8Decode ((0xF0 + c.toNat / 0x40000) :: (0x80 + c.toNat / 0x1000 % 0x40) ::
          (0x80 + c.toNat / 0x40 % 0x40) :: (0x80 + c.toNat % 0x40) :: rest) = _
        rw [utf8Decode_cons_cons, if_neg (by omega), if_neg (by omega), if_neg (by omega),
          if_neg (by omega), if_pos (by omega)]
        simp only []
        rw [if_pos (show (isCont (0x80 + c.toNat / 0x1000 % 0x40) &&
            isCont (0x80 + c.toNat / 0x40 % 0x40) && isCont (0x80 + c.toNat % 0x40)) = true by
          rw [isCont_true _ (by omega) (by omega), isCont_true _ (by omega) (by omega),
            isCont_true _ (by omega) (by omega)]; rfl)]
        simp only [show (0xF0 + c.toNat / 0x40000 - 0xF0) * 0x40000 +
            (0x80 + c.toNat / 0x1000 % 0x40 - 0x80) * 0x1000 +
            (0x80 + c.toNat / 0x40 % 0x40 - 0x80) * 0x40 + (0x80 + c.toNat % 0x40 - 0x80)
            = c.toNat from by omega, Char.ofNat_toNat]

theorem utf8Decode_flatten (l : List Char) :
    utf8Decode (l.flatMap fun c => utf8EncodeChar c.toNat) = some l := by
  induction l with
  | nil => rfl
  | cons c l ih =>
    rw [List.flatMap_cons, utf8Decode_encodeChar, ih]
    rfl

/-- Urlencoded round-trip: decoding the serialization of any string's
characters recovers them exactly. -/
theorem formDecodeList_formEncodeList (l : List Char) :
    formDecodeList (formEncodeList l) = some l := by
  unfold formDecodeList
  rw [pctDecodeBytes_formEncodeList]
  simpa using utf8Decode_flatten l

theorem hexDigit_safe : ∀ v, v < 16 →
    ¬ hexDigit v = '&' ∧ ¬ hexDigit v = '=' ∧ ¬ hexDigit v = '?' := by decide

/-- Serializer output never contains the query-string structure characters. -/
theorem formEncodeChar_safe (c : Char) (x : Char) (hx : x ∈ formEncodeChar c) :
    ¬ x = '&' ∧ ¬ x = '=' ∧ ¬ x = '?' := by
  unfold formEncodeChar at hx
  split_ifs at hx with h1 h2
  · simp at hx
    subst hx
    refine ⟨fun hh => ?_, fun hh => ?_, fun hh => ?_⟩ <;> (subst hh; exact absurd h1 (by decide))
  · simp at hx
    subst hx
    exact ⟨by decide, by decide, by decide⟩
  · simp only [List.mem_flatMap] at hx
    obtain ⟨b, hb, hxb⟩ := hx
    have hb256 : b < 256 := utf8EncodeChar_lt_256 c.toNat (char_toNat_lt c) b hb
    unfold pctTriple at hxb
    simp at hxb
    rcases hxb with rfl | rfl | rfl
    · exact ⟨by decide, by decide, by decide⟩
    · exact hexDigit_safe (b / 16) (by omega)
    · exact hexDigit_safe (b % 16) (by omega)

theorem formEncodeList_safe (l : List Char) (x : Char) (hx : x ∈ formEncodeList l) :
    ¬ x = '&' ∧ ¬ x = '=' ∧ ¬ x = '?' := by
  unfold formEncodeList at hx
  simp only [List.mem_flatMap] at hx
  obtain ⟨c, _, hxc⟩ := hx
  exact formEncodeChar_safe c x hxc

theorem splitOnCharAux_no_sep (sep : Char) (a : List Char) (ha : ∀ x ∈ a, ¬ x = sep) :
    ∀ acc, splitOnCharAux sep a acc = [acc.reverse ++ a] := by
  induction a with
  | nil => intro acc; simp [splitOnCharAux]
  | cons c rest ih =>
    intro acc
    show splitOnCharAux sep (c :: rest) acc = _
    conv_lhs => unfold splitOnCharAux
    rw [if_neg (ha c (by simp)), ih (fun x hx => ha x (by simp [hx])) (c :: acc)]
    simp

theorem splitOnCharAux_sep (sep : Char) (a : List Char) (ha : ∀ x ∈ a, ¬ x = sep)
    (r : List Char) :
    ∀ acc, splitOnCharAux sep (a ++ sep :: r) acc =
      (acc.reverse ++ a) :: splitOnCharAux sep r [] := by
  induction a with
  | nil =>
    intro acc
    show splitOnCharAux sep (sep :: r) acc = _
    conv_lhs => unfold splitOnCharAux
    rw [if_pos rfl]
    simp
  | cons c rest ih =>
    intro acc
    show splitOnCharAux sep (c :: (rest ++ sep :: r)) acc = _
    conv_lhs => unfold splitOnCharAux
    rw [if_neg (ha c (by simp)), ih (fun x hx => ha x (by simp [hx])) (c :: acc)]
    simp

theorem splitFirstOn_key (sep : Char) (k v : List Char) (hk : ∀ x ∈ k, ¬ x = sep) :
    splitFirstOn sep (k ++ sep :: v) = (k, v) := by
  induction k with
  | nil =>
    show splitFirstOn sep (sep :: v) = _
    conv_lhs => unfold splitFirstOn
    rw [if_pos rfl]
  | cons c rest ih =>
    show splitFirstOn sep (c :: (rest ++ sep :: v)) = _
    conv_lhs => unfold splitFirstOn
    rw [if_neg (hk c (by simp)), ih (fun x hx => hk x (by simp [hx]))]

theorem dropThroughFirst_list (q : List Char) :
    dropThroughFirst '?' ("/list?".data ++ q) = q := rfl

theorem comp_city_no_amp (loc : String) :
    ∀ x ∈ formEncodeList "city".data ++ '=' :: formEncodeList loc.data, ¬ x = '&' := by
  intro x hx
  rcases List.mem_append.1 hx with h | h
  · exact (formEncodeList_safe _ x h).1
  · rcases List.mem_cons.1 h with rfl | h
    · decide
    · exact (formEncodeList_safe _ x h).1

/-- `URLSearchParams.get('city')` on a `/list?...` URL whose first parameter
is `city=loc` recovers `loc` exactly, whatever the remaining parameters. -/
theorem getSearchParam_city (loc : String) (tail : List (String × String)) :
    getSearchParam ("/list?" ++ urlSearchParamsToString (("city", loc) :: tail)) "city"
      = some loc := by
  unfold getSearchParam urlSearchParamsToString
  rw [String.data_append]
  show (splitOnChar '&' (dropThroughFirst '?' ("/list?".data ++
      joinAmp (List.map _ (("city", loc) :: tail))))).findSome? _ = _
  rw [List.map_cons, dropThroughFirst_list]
  cases tail with
  | nil =>
    rw [List.map_nil,
      show joinAmp [formEncodeList "city".data ++ '=' :: formEncodeList loc.data] =
        formEncodeList "city".data ++ '=' :: formEncodeList loc.data from rfl]
    unfold splitOnChar
    rw [splitOnCharAux_no_sep '&' _ (comp_city_no_amp loc) []]
    rw [List.findSome?_cons]
    simp only [List.reverse_nil, List.nil_append]
    rw [splitFirstOn_key '=' _ _ (fun x hx => (formEncodeList_safe _ x hx).2.1)]
    rw [formDecodeList_formEncodeList, formDecodeList_formEncodeList]
    rfl
  | cons q qs =>
    rw [List.map_cons,
      show joinAmp ((formEncodeList "city".data ++ '=' :: formEncodeList loc.data) ::
          (formEncodeList q.1.data ++ '=' :: formEncodeList q.2.data) ::
          List.map (fun kv => formEncodeList kv.1.data ++ '=' :: formEncodeList kv.2.data) qs) =
        (formEncodeList "city".data ++ '=' :: formEncodeList loc.data) ++
          '&' :: joinAmp ((formEncodeList q.1.data ++ '=' :: formEncodeList q.2.data) ::
            List.map (fun kv => formEncodeList kv.1.data ++ '=' :: formEncodeList kv.2.data) qs)
        from rfl]
    unfold splitOnChar
    rw [splitOnCharAux_sep '&' _ (comp_city_no_amp loc) _ []]
    rw [List.findSome?_cons]
    simp only [List.reverse_nil, List.nil_append]
    rw [splitFirstOn_key '=' _ _ (fun x hx => (formEncodeList_safe _ x hx).2.1)]
    rw [formDecodeList_formEncodeList, formDecodeList_formEncodeList]
    rfl

/-! ### C8: searchUrl construction and round-trip -/

/-- C8 counterexample: a request with resolved intent `search`, location
`Lagos`, and a non-empty search result (the first conjunct evaluates the
exact filter set the pipeline uses) whose generation stage fails after
retries — the fallback is sent with `searchUrl: null`, so the produced
`searchUrl` is *not* built from the resolved filters on every such request. -/
theorem searchUrl_none_on_generation_failure :
    (SessionAssistant.searchListings
        { location := some "Lagos", propertyType := JSVal.val "any", priceRange := JSVal.null,
          bedrooms := JSVal.null, action := JSVal.val "any" } (.ok [lagosPost])).count = 1 ∧
    (SessionAssistant.chatWithAssistant ([] : SessionStore String) (some "flats in Lagos")
        (some "s") "g" genFailEnv 0).response.searchUrl = none := by
  constructor
  · decide
  · decide

/-- C8 amended: when additionally the generation call yields a parsed
payload, the session-based handler's `searchUrl` is rebuilt
deterministically from the resolved filters (`city`, plus
`property`/`bedroom`/`minPrice`/`maxPrice` when present) and decoding the
URL's `city` parameter yields exactly the resolved location; when the
generation stage fails after retries the fallback carries `searchUrl: null`
instead.  (In the single-turn variant the rebuild additionally only happens
when the model itself supplied a non-null `searchUrl`.) -/
theorem searchUrl_roundtrip [DecidableEq κ] (store : SessionStore κ) (message : Option String)
    (sessionId : Option κ) (genSid : κ) (env : SessionAssistant.ChatEnv) (now : Nat)
    (j : Option SessionAssistant.IntentJson) (p : SessionAssistant.GenPayload) (loc : String)
    (hmsg : invalidMessage message = false)
    (hok : env.intentUpstream = .ok j)
    (hintent : (SessionAssistant.detectIntent j).intent = "search")
    (hloc : (SessionAssistant.detectIntent j).location = some loc)
    (hne : ¬ loc = "")
    (hgen : env.gen = .parsed p)
    (_hcount : 0 < (SessionAssistant.searchListings
      { location := some loc, propertyType := (SessionAssistant.detectIntent j).propertyType,
        priceRange := (SessionAssistant.detectIntent j).priceRange,
        bedrooms := (SessionAssistant.detectIntent j).bedrooms,
        action := (SessionAssistant.detectIntent j).action } env.db).count) :
    (SessionAssistant.chatWithAssistant store message sessionId genSid env now).response.searchUrl
      = some (SessionAssistant.buildSearchUrl (SessionAssistant.detectIntent j)) ∧
    getSearchParam (SessionAssistant.buildSearchUrl (SessionAssistant.detectIntent j)) "city"
      = some loc := by
  have hcond : ((SessionAssistant.detectIntent j).intent = "search" &&
      optTruthy (SessionAssistant.detectIntent j).location) = true := by
    rw [hintent, hloc]
    simp [optTruthy, hne]
  constructor
  · rw [sa_chat_ok_eq store message sessionId genSid env now j hmsg hok]
    simp only [hgen]
    unfold SessionAssistant.generateResponse
    simp only []
    rw [if_pos hcond]
  · have hps : SessionAssistant.searchParamsOf (SessionAssistant.detectIntent j) =
        ("city", loc) ::
          ((match (SessionAssistant.detectIntent j).propertyType with
            | JSVal.val s => if s ≠ "" && s ≠ "any" then [("property", s)] else []
            | _ => []) ++
           (match (SessionAssistant.detectIntent j).bedrooms with
            | JSVal.val n => if n ≠ 0 then [("bedroom", toString n)] else []
            | _ => []) ++
           (match (SessionAssistant.detectIntent j).priceRange with
            | JSVal.val pr =>
              [("minPrice", toString (pr.min.getD 0)),
                ("maxPrice", toString (match pr.max with
                  | some m => if m = 0 then 10000000 else m
                  | none => 10000000))]
            | _ => [])) := by
      unfold SessionAssistant.searchParamsOf
      rw [hloc]
      rfl
    unfold SessionAssistant.buildSearchUrl
    rw [hps]
    exact getSearchParam_city loc _

/-- C8 amended witness: fully-filtered search for "Lagos Island" (space
encoded as `+`) with one matching listing and a parsed generation payload —
the URL is rebuilt from the filters and its `city` parameter decodes back to
"Lagos Island". -/
theorem searchUrl_roundtrip_witness :
    (SessionAssistant.chatWithAssistant ([] : SessionStore String)
        (some "2 bed flats on Lagos Island") (some "s") "g" roundtripEnv 0).response.searchUrl
      = some (SessionAssistant.buildSearchUrl
          (SessionAssistant.detectIntent (some searchFullIntentJson))) ∧
    getSearchParam (SessionAssistant.buildSearchUrl
        (SessionAssistant.detectIntent (some searchFullIntentJson))) "city"
      = some "Lagos Island" := by
  exact searchUrl_roundtrip ([] : SessionStore String) (some "2 bed flats on Lagos Island")
    (some "s") "g" roundtripEnv 0 (some searchFullIntentJson)
    { reply := "Found it!", searchUrl := none, suggestions := none, preferences := none }
    "Lagos Island" (by decide) rfl (by decide) (by decide) (by decide) rfl (by decide)
